import Mathlib

/-!
Shallow embedding of the scouts-cli credential lifecycle manager
(`src/scouts_cli/client/auth.py`, `src/scouts_cli/client/browser_auth.py`)
and of the local context cache (`src/scouts_cli/context.py`).

Modelling conventions:
* Python dictionaries read from JSON become structures with `Option`-valued
  fields (`none` = key absent or value `null`).
* Insertion-ordered dictionaries built by the code become association lists
  (`List (key × value)`): a fresh key is appended at the end, an existing
  key's value is updated in place.
* Library calls outside this repository (ISO-8601 timestamp parsing,
  urlsafe-base64 + JSON decoding of the JWT payload, the Playwright phases)
  are parameters of the embedding, so every repository-side branch stays
  explicit.
* Python truthiness of optional strings/numbers is made explicit
  (`truthyS`, `truthyN`).
-/

namespace Scouts

/-- Python truthiness of an optional string: `None` and `""` are falsy. -/
def truthyS : Option String → Bool
  | none => false
  | some s => s ≠ ""

/-- Python truthiness of an optional number: `None` and `0` are falsy. -/
def truthyN : Option Nat → Bool
  | none => false
  | some n => n ≠ 0

/-- Python `a or b` on optional strings: `a` when truthy, else `b`. -/
def pyOr (a b : Option String) : Option String :=
  if truthyS a then a else b

/-- Python `str.strip()`: remove leading and trailing whitespace. -/
def pyStrip (s : String) : String :=
  String.mk (((s.data.dropWhile Char.isWhitespace).reverse.dropWhile
      Char.isWhitespace).reverse)

/-- Python `str.split('.')` on the character list: split at every dot,
keeping empty segments (`split` with an explicit separator never collapses
them). -/
def splitDots : List Char → List (List Char)
  | [] => [[]]
  | c :: rest =>
    match splitDots rest with
    | [] => [[]]
    | h :: t => if c = '.' then [] :: h :: t else (c :: h) :: t

/-- Python `token.split('.')`. -/
def pySplitDot (s : String) : List String :=
  (splitDots s.data).map String.mk

/-- Python `s.startswith(pre)`. -/
def pyStartsWith (s pre : String) : Bool :=
  pre.data.isPrefixOf s.data

/-! ## Credential records and expiry (`src/scouts_cli/client/auth.py`) -/

/-- The cached credential record (`token.json`) as `_load_cached_token`
returns it and `login_with_token` writes it. -/
structure TokenData where
  token : String
  obtained_at : Option String := none
  expires_at : Option String := none
  user : Option String := none
  uid : Option Nat := none
  mid : Option Nat := none
  pgu : Option String := none
  scope : List String := []
  deriving DecidableEq, Repr

/-- `ScoutingAuth._is_expired`: a record whose `expires_at` is absent or
falsy is expired; one whose `expires_at` does not parse
(`datetime.fromisoformat` raising `ValueError`, modelled by `parseIso`
returning `none`) is expired; otherwise expired iff `now >= expires_at`,
both on the UTC timeline. -/
def is_expired (parseIso : String → Option Int) (now : Int) (t : TokenData) : Bool :=
  match t.expires_at with
  | none => true
  | some s =>
    if s = "" then true
    else
      match parseIso s with
      | none => true
      | some e => now ≥ e

/-- Decoded JWT claims, the result of `_decode_jwt_claims`. `exp` is the
numeric expiry claim; Python treats `exp = 0` as falsy in
`login_with_token`, which the `some 0` case keeps visible. -/
structure JwtClaims where
  exp : Option Int := none
  user : Option String := none
  uid : Option Nat := none
  mid : Option Nat := none
  pgu : Option String := none
  scope : List String := []
  deriving DecidableEq, Repr

/-- The padding step of `_decode_jwt_claims`: pad the payload with `'='` up
to a multiple of four characters. -/
def padPayload (p : String) : String :=
  let padding := 4 - p.length % 4
  if padding ≠ 4 then p ++ String.mk (List.replicate padding '=') else p

/-- `ScoutingAuth._decode_jwt_claims`: split on `'.'`, require exactly three
segments, decode the padded middle segment. The urlsafe-base64 + JSON step
is the oracle `dec` (`none` = any decoding exception). -/
def decode_jwt_claims (dec : String → Option JwtClaims) (token : String) :
    Except String JwtClaims :=
  match pySplitDot token with
  | [_, payload, _] =>
    match dec (padPayload payload) with
    | some c => Except.ok c
    | none => Except.error "Failed to decode JWT token."
  | _ => Except.error "Invalid JWT format (expected 3 parts)."

/-- `ScoutingAuth.login_with_token` up to the file write: the checks in
source order, and on success the `token_data` record the method persists.
`fromTimestamp` stands for `datetime.fromtimestamp(exp, utc).isoformat()`,
`nowIso` for `datetime.now(utc).isoformat()`. An `Except.error` models a
raised `AuthenticationError`, which aborts before the store write. -/
def login_with_token (dec : String → Option JwtClaims)
    (fromTimestamp : Int → String) (nowIso : String) (token : String) :
    Except String TokenData :=
  if pyStartsWith token "eyJ" then
    match decode_jwt_claims dec token with
    | Except.error e => Except.error e
    | Except.ok claims =>
      match claims.exp with
      | none => Except.error "Token has no expiration claim."
      | some e =>
        if e = 0 then Except.error "Token has no expiration claim."
        else
          Except.ok
            { token := token
              obtained_at := some nowIso
              expires_at := some (fromTimestamp e)
              user := some (claims.user.getD "unknown")
              uid := claims.uid
              mid := claims.mid
              pgu := claims.pgu
              scope := claims.scope }
  else
    Except.error "Invalid token format. JWT tokens start with 'eyJ'. Make sure you copied the full token from LOGIN_DATA."

/-- `login_with_token` seen as a transformer of the credential store: a
raised error leaves the store untouched, success overwrites it with the
new record. Returns the new store and the raised message, if any. -/
def ingestToken (dec : String → Option JwtClaims) (fromTimestamp : Int → String)
    (nowIso : String) (store : Option TokenData) (token : String) :
    Option TokenData × Option String :=
  match login_with_token dec fromTimestamp nowIso token with
  | Except.ok r => (some r, none)
  | Except.error e => (store, some e)

/-! ## Browser acquisition (`src/scouts_cli/client/browser_auth.py`) -/

/-- A constructed `BrowserAuthError` object: a message and the suggestion
the class constructor stored. -/
structure BrowserAuthErrorS where
  message : String
  suggestion : Option String := none
  deriving DecidableEq, Repr

/-- The `BrowserAuthError` constructor from `errors.py`: a falsy
`suggestion` argument is replaced by the class's default remediation
text (`suggestion or "Try again, ..."`). -/
def mkBrowserAuthError (message : String) (suggestion : Option String) :
    BrowserAuthErrorS :=
  { message := message
    suggestion :=
      pyOr suggestion
        (some "Try again, or use manual token auth: scouts auth login --token <JWT>") }

/-- The error `_check_playwright_available` raises when Playwright is not
importable. -/
def playwrightMissingError : BrowserAuthErrorS :=
  mkBrowserAuthError "Playwright is not installed. Browser-based login requires it."
    (some "Install with: pip install playwright\nOr use manual token auth: scouts auth login --token <JWT>")

/-- `BROWSER_HEADED_TIMEOUT` from `src/scouts_cli/config.py`. -/
def BROWSER_HEADED_TIMEOUT : Nat := 300

/-- `BROWSER_HEADLESS_TIMEOUT` from `src/scouts_cli/config.py`. -/
def BROWSER_HEADLESS_TIMEOUT : Nat := 15

/-- The final `BrowserAuthError` message of `acquire_token_via_browser`,
an f-string interpolating the configured headed timeout. -/
def timeoutMessage (t : Nat) : String :=
  "Timed out waiting for login (" ++ toString t ++ "s). Please try again or use: scouts auth login --token <JWT>"

deriving instance DecidableEq for Except

/-- Outcome of `acquire_token_via_browser`, instrumented with whether the
headed (phase 2) `_try_acquire` was entered. -/
structure AcquireOutcome where
  result : Except BrowserAuthErrorS String
  ranHeaded : Bool
  deriving DecidableEq, Repr

/-- `acquire_token_via_browser`: check Playwright, run the headless phase,
on no token run the headed phase, on no token raise the timeout error.
Each phase's `_try_acquire` outcome is abstracted as an `Option String`
(`none` covers both deadline exhaustion and an internal browser error,
which `_try_acquire` converts to `None`). -/
def acquire_token_via_browser (available : Bool) (phase1 phase2 : Option String) :
    AcquireOutcome :=
  if available then
    match phase1 with
    | some t => { result := Except.ok t, ranHeaded := false }
    | none =>
      match phase2 with
      | some t => { result := Except.ok t, ranHeaded := true }
      | none =>
        { result := Except.error
            (mkBrowserAuthError (timeoutMessage BROWSER_HEADED_TIMEOUT) none)
          ranHeaded := true }
  else
    { result := Except.error playwrightMissingError, ranHeaded := false }

/-! ## `ScoutingAuth.get_token` -/

/-- Outcome of `ScoutingAuth.get_token`, tagged by which statement produced
it: the cache-hit `return`, the browser-path `return`, a raised
`AuthenticationError`, or a propagated `BrowserAuthError`. No code path
produces the last tag; carrying it in the type is what makes "never
propagates a `BrowserAuthError`" statable. -/
inductive GetTokenOutcome where
  | okCache (t : String)
  | okBrowser (t : String)
  | authError (msg : String)
  | browserError (e : BrowserAuthErrorS)
  deriving DecidableEq, Repr

/-- The `AuthenticationError` message for an expired cached record:
`f"Token expired at {cached.get('expires_at', 'unknown')}."`. -/
def expiredMsg (t : TokenData) : String :=
  "Token expired at " ++ t.expires_at.getD "unknown" ++ "."

/-- The tail of `get_token` after the browser attempt: the explicit error
distinguishing "token expired at T" from "no token found". -/
def get_token_fallthrough (parseIso : String → Option Int) (now : Int)
    (cached : Option TokenData) : GetTokenOutcome :=
  match cached with
  | some r =>
    if is_expired parseIso now r then GetTokenOutcome.authError (expiredMsg r)
    else GetTokenOutcome.authError "No authentication token found."
  | none => GetTokenOutcome.authError "No authentication token found."

/-- The `try` block of `get_token`: unless browser auth is disabled, take
the browser outcome; on a token, ingest it with `login_with_token` and
return it; any exception (from acquisition or ingestion) is swallowed and
falls through to the manual error. -/
def get_token_browser_phase (parseIso : String → Option Int) (now : Int)
    (dec : String → Option JwtClaims) (fromTimestamp : Int → String) (nowIso : String)
    (cached : Option TokenData) (noBrowser : Bool)
    (browserResult : Except BrowserAuthErrorS String) : GetTokenOutcome :=
  if noBrowser then get_token_fallthrough parseIso now cached
  else
    match browserResult with
    | Except.ok t =>
      match login_with_token dec fromTimestamp nowIso t with
      | Except.ok _ => GetTokenOutcome.okBrowser t
      | Except.error _ => get_token_fallthrough parseIso now cached
    | Except.error _ => get_token_fallthrough parseIso now cached

/-- `ScoutingAuth.get_token`. `cached` is the `_load_cached_token()` result
(`none` = the falsy empty dict returned for a missing or corrupt file),
`noBrowser` the `SCOUTS_NO_BROWSER` flag, `browserResult` the outcome of
`acquire_token_via_browser()` (`Except.error` = the raised exception). -/
def get_token (parseIso : String → Option Int) (now : Int)
    (dec : String → Option JwtClaims) (fromTimestamp : Int → String) (nowIso : String)
    (cached : Option TokenData) (noBrowser : Bool)
    (browserResult : Except BrowserAuthErrorS String) : GetTokenOutcome :=
  match cached with
  | some r =>
    if is_expired parseIso now r then
      get_token_browser_phase parseIso now dec fromTimestamp nowIso cached noBrowser browserResult
    else GetTokenOutcome.okCache r.token
  | none =>
    get_token_browser_phase parseIso now dec fromTimestamp nowIso cached noBrowser browserResult

/-! ## Association lists: the Python dicts of `context.py`

`seen` and `orgs` in `ScoutContext.refresh` are insertion-ordered Python
dicts. The code inserts a key only after checking it is absent and
otherwise mutates the stored value, so an association list with
append-on-insert and in-place update is an exact model. -/

/-- Dict lookup: value at the first matching key. -/
def lookupA {K V : Type} [DecidableEq K] (k : K) : List (K × V) → Option V
  | [] => none
  | (k', v) :: rest => if k' = k then some v else lookupA k rest

/-- Dict insertion of a fresh key (`d[k] = v` with `k` not yet a key):
appended at the end, preserving insertion order. -/
def insertA {K V : Type} (k : K) (v : V) (l : List (K × V)) : List (K × V) :=
  l ++ [(k, v)]

/-- In-place mutation of an existing key's value (`d[k].mutate()`). -/
def updateA {K V : Type} [DecidableEq K] (k : K) (f : V → V) :
    List (K × V) → List (K × V)
  | [] => []
  | (k', v) :: rest =>
    if k' = k then (k', f v) :: rest else (k', v) :: updateA k f rest

/-- The dict's keys, in insertion order. -/
def keysA {K V : Type} (l : List (K × V)) : List K := l.map Prod.fst

/-- The dict's values, in insertion order (`list(d.values())`). -/
def valuesA {K V : Type} (l : List (K × V)) : List V := l.map Prod.snd

/-! ## Context cache data (`src/scouts_cli/context.py`) -/

/-- One entry of the profile's `organizationPositions` list. -/
structure PosRec where
  name : Option String := none
  position : Option String := none
  deriving DecidableEq, Repr

/-- One organization-position block of the caller's profile. -/
structure OrgPos where
  organizationGuid : Option String := none
  organizationName : Option String := none
  unitType : Option String := none
  unitNumber : Option String := none
  positions : List PosRec := []
  deriving DecidableEq, Repr

/-- One entry of the profile's `emails` list. -/
structure EmailRec where
  email : Option String := none
  deriving DecidableEq, Repr

/-- The `profile` sub-dict of the caller's profile. -/
structure ProfileInner where
  memberId : Option Nat := none
  firstName : Option String := none
  lastName : Option String := none
  fullName : Option String := none
  deriving DecidableEq, Repr

/-- The caller's profile as returned by `client.get_person_profile`. -/
structure Profile where
  profile : Option ProfileInner := none
  emails : Option (List EmailRec) := none
  organizationPositions : Option (List OrgPos) := none
  deriving DecidableEq, Repr

/-- One raw dependent record from `client.get_my_scouts`. -/
structure RawScout where
  personGuid : Option String := none
  orgGuid : Option String := none
  firstName : Option String := none
  lastName : Option String := none
  userId : Option Nat := none
  memberId : Option Nat := none
  unitType : Option String := none
  unitNumber : Option String := none
  program : Option String := none
  organizationName : Option String := none
  position : Option String := none
  deriving DecidableEq, Repr

/-- One entry from `client.get_role_types`. -/
structure RoleRec where
  organizationGuid : Option String := none
  programType : Option String := none
  deriving DecidableEq, Repr

/-- A scout reference inside an organization's `scouts` summary list. -/
structure OrgScoutRef where
  name : String
  userId : Option Nat := none
  memberId : Option Nat := none
  deriving DecidableEq, Repr

/-- A snapshot organization entry. `program` is doubly optional: the outer
`none` models the `'program'` key being absent from the dict (profile-seeded
entries never set it; `refresh` tests `'program' not in orgs[guid]`), while
`some v` models the key being present with value `v` (possibly `null`). -/
structure OrgEntry where
  orgGuid : String
  name : Option String := none
  unitType : Option String := none
  unitNumber : Option String := none
  program : Option (Option String) := none
  roles : List String := []
  scouts : List OrgScoutRef := []
  deriving DecidableEq, Repr

/-- A deduplicated snapshot scout entry. `positions` holds the raw
`scout.get('position')` values, so `none` (Python `None`) can occur as the
first element. -/
structure ScoutEntry where
  firstName : Option String := none
  lastName : Option String := none
  fullName : String := ""
  userId : Option Nat := none
  memberId : Option Nat := none
  personGuid : Option String := none
  orgGuid : Option String := none
  unitType : Option String := none
  unitNumber : Option String := none
  program : Option String := none
  organization : Option String := none
  positions : List (Option String) := []
  deriving DecidableEq, Repr

/-- The snapshot's `user` section. -/
structure UserSection where
  userId : Option Nat := none
  personGuid : Option String := none
  memberId : Option Nat := none
  firstName : Option String := none
  lastName : Option String := none
  fullName : Option String := none
  email : Option String := none
  deriving DecidableEq, Repr

/-! ## `ScoutContext.refresh`, step by step -/

/-- The user-section build: seed `userId`/`personGuid` from the token
claims; when `user_id` is truthy, fetch the profile and enrich — a fetch
exception leaves the seeded section unchanged. -/
def buildUser (uid : Option Nat) (pgu : Option String)
    (profileResult : Except Unit Profile) : UserSection :=
  let base : UserSection := { userId := uid, personGuid := pgu }
  if truthyN uid then
    match profileResult with
    | Except.ok profile =>
      let p := profile.profile.getD {}
      let emails :=
        match profile.emails with
        | none => [({} : EmailRec)]
        | some l => if l.isEmpty then [{}] else l
      { base with
        memberId := p.memberId
        firstName := p.firstName
        lastName := p.lastName
        fullName := p.fullName
        email := (emails.headD {}).email }
    | Except.error _ => base
  else base

/-- One step of the organization seeding from the profile's
`organizationPositions`: skip a falsy guid, insert a fresh entry (with no
`'program'` key) for an unseen guid, then merge the block's truthy position
names into the entry's `roles` without duplication. -/
def seedOrg (orgs : List (String × OrgEntry)) (op : OrgPos) :
    List (String × OrgEntry) :=
  match op.organizationGuid with
  | none => orgs
  | some g =>
    if g = "" then orgs
    else
      let orgs1 :=
        match lookupA g orgs with
        | none =>
          insertA g
            { orgGuid := g
              name := op.organizationName
              unitType := op.unitType
              unitNumber := op.unitNumber
              roles := []
              scouts := [] } orgs
        | some _ => orgs
      (op.positions.map (fun pos => pyOr pos.name pos.position)).foldl
        (fun acc pos =>
          match pos with
          | some p =>
            if p = "" then acc
            else
              updateA g
                (fun e => if p ∈ e.roles then e else { e with roles := e.roles ++ [p] })
                acc
          | none => acc)
        orgs1

/-- The profile-derived organization set: empty unless `user_id` is truthy
and the profile fetch succeeds. -/
def seedOrgsFromProfile (uid : Option Nat) (profileResult : Except Unit Profile) :
    List (String × OrgEntry) :=
  if truthyN uid then
    match profileResult with
    | Except.ok profile => (profile.organizationPositions.getD []).foldl seedOrg []
    | Except.error _ => []
  else []

/-- The fresh `seen[pg]` entry built from the first raw record carrying a
given person guid. -/
def mkScoutEntry (s : RawScout) : ScoutEntry :=
  { firstName := s.firstName
    lastName := s.lastName
    fullName := pyStrip ((s.firstName.getD "") ++ " " ++ (s.lastName.getD ""))
    userId := s.userId
    memberId := s.memberId
    personGuid := s.personGuid
    orgGuid := s.orgGuid
    unitType := s.unitType
    unitNumber := s.unitNumber
    program := s.program
    organization := s.organizationName
    positions := [s.position] }

/-- The `seen` half of the dependent loop: insert a fresh entry for an
unseen person guid, otherwise append the record's position when it is
truthy and not yet accumulated. -/
def stepSeen (seen : List (Option String × ScoutEntry)) (s : RawScout) :
    List (Option String × ScoutEntry) :=
  match lookupA s.personGuid seen with
  | none => insertA s.personGuid (mkScoutEntry s) seen
  | some _ =>
    match s.position with
    | some p =>
      if p = "" then seen
      else
        updateA s.personGuid
          (fun e =>
            if some p ∈ e.positions then e
            else { e with positions := e.positions ++ [some p] })
          seen
    | none => seen

/-- The stub organization entry materialized for a dependent whose truthy
org guid is not yet known: named from unit type and number (or falling back
to the record's organization name), `'program'` key present, and the fixed
parent role. -/
def stubOrg (s : RawScout) (g : String) : OrgEntry :=
  let ut := s.unitType.getD ""
  let un := s.unitNumber.getD ""
  { orgGuid := g
    name := if ut ≠ "" then some (pyStrip (ut ++ " " ++ un)) else s.organizationName
    unitType := some ut
    unitNumber := some un
    program := some s.program
    roles := ["Parent/Guardian"]
    scouts := [] }

/-- The `orgs` half of the dependent loop: for a truthy org guid either
materialize the stub entry or append the fixed parent role when missing. -/
def stepOrgFromScout (orgs : List (String × OrgEntry)) (s : RawScout) :
    List (String × OrgEntry) :=
  match s.orgGuid with
  | none => orgs
  | some g =>
    if g = "" then orgs
    else
      match lookupA g orgs with
      | none => insertA g (stubOrg s g) orgs
      | some e =>
        if "Parent/Guardian" ∈ e.roles then orgs
        else updateA g (fun e' => { e' with roles := e'.roles ++ ["Parent/Guardian"] }) orgs

/-- The back-fill of each organization's `scouts` summary from the
deduplicated dependents, avoiding duplicate entries by dependent
`userId`. -/
def addRef (orgs : List (String × OrgEntry)) (sc : ScoutEntry) :
    List (String × OrgEntry) :=
  match sc.orgGuid with
  | none => orgs
  | some g =>
    if g = "" then orgs
    else
      match lookupA g orgs with
      | none => orgs
      | some _ =>
        updateA g
          (fun e =>
            if sc.userId ∈ e.scouts.map OrgScoutRef.userId then e
            else
              { e with
                scouts := e.scouts ++
                  [{ name := sc.fullName, userId := sc.userId, memberId := sc.memberId }] })
          orgs

/-- One step of the role merge: for an entry whose guid is already known,
back-fill the `program` field from the role's truthy `programType` only
when the `'program'` key is absent. -/
def progStep (orgs : List (String × OrgEntry)) (r : RoleRec) :
    List (String × OrgEntry) :=
  match r.organizationGuid with
  | none => orgs
  | some g =>
    if g = "" then orgs
    else
      match lookupA g orgs with
      | none => orgs
      | some e =>
        match r.programType with
        | none => orgs
        | some p =>
          if p = "" then orgs
          else
            if e.program = none then
              updateA g (fun e' => { e' with program := some (some p) }) orgs
            else orgs

/-- The assembled result of one `ScoutContext.refresh` pass, instrumented
with how many times each collaborator endpoint was called (a call counts
whether it succeeds or raises). -/
structure RefreshOut where
  user : UserSection
  organizations : List OrgEntry
  scouts : List ScoutEntry
  profileCalls : Nat
  scoutsCalls : Nat
  rolesCalls : Nat
  deriving Repr

/-- The dependent block of `refresh` (the `get_my_scouts` fetch): when
`user_id` is truthy and the fetch succeeds, deduplicate the raw records
into `seen`, enrich `orgs` from every raw record, then back-fill the
organizations' scout summaries from the deduplicated list; a fetch
exception contributes nothing. -/
def scoutsStage (uid : Option Nat) (scoutsResult : Except Unit (List RawScout))
    (orgs0 : List (String × OrgEntry)) :
    List ScoutEntry × List (String × OrgEntry) :=
  if truthyN uid then
    match scoutsResult with
    | Except.ok raw =>
      let seen := raw.foldl stepSeen []
      let orgs1 := raw.foldl stepOrgFromScout orgs0
      let scouts := valuesA seen
      (scouts, scouts.foldl addRef orgs1)
    | Except.error _ => ([], orgs0)
  else ([], orgs0)

/-- The role-merge block of `refresh` (the `get_role_types` fetch): run
only for a truthy `person_guid`; a fetch exception contributes nothing. -/
def rolesStage (pgu : Option String) (rolesResult : Except Unit (List RoleRec))
    (orgs : List (String × OrgEntry)) : List (String × OrgEntry) :=
  if truthyS pgu then
    match rolesResult with
    | Except.ok roles => roles.foldl progStep orgs
    | Except.error _ => orgs
  else orgs

/-- `ScoutContext.refresh` as a pure function of the credential claims
(`uid`, `pgu` from `get_token_info`) and the three collaborator outcomes
(`Except.error` = the call raised): user section, profile-seeded
organizations, dependent stage, role-merge stage, assembled snapshot.
`get_person_profile` is called at two distinct sites — once for the user
section, once to seed organizations — counted by `profileCalls`; each call
site counts whether or not the call raises. -/
def refresh (uid : Option Nat) (pgu : Option String)
    (profileResult : Except Unit Profile)
    (scoutsResult : Except Unit (List RawScout))
    (rolesResult : Except Unit (List RoleRec)) : RefreshOut :=
  let stage := scoutsStage uid scoutsResult (seedOrgsFromProfile uid profileResult)
  { user := buildUser uid pgu profileResult
    organizations := valuesA (rolesStage pgu rolesResult stage.2)
    scouts := stage.1
    profileCalls := (if truthyN uid then 1 else 0) + (if truthyN uid then 1 else 0)
    scoutsCalls := if truthyN uid then 1 else 0
    rolesCalls := if truthyS pgu then 1 else 0 }

/-! ## The persisted snapshot and the local read layer -/

/-- `CONTEXT_VERSION` from `context.py`. -/
def CONTEXT_VERSION : Nat := 1

/-- A loaded `context.json` as the read layer sees it: every section
optional. -/
structure CtxData where
  version : Option Nat := none
  lastRefreshed : Option String := none
  user : Option UserSection := none
  organizations : Option (List OrgEntry) := none
  scouts : Option (List ScoutEntry) := none
  deriving DecidableEq, Repr

/-- `ScoutContext.exists`: the load must succeed and the stored `version`
must equal the fixed schema version. -/
def ctx_exists (d : Option CtxData) : Bool :=
  match d with
  | none => false
  | some c => c.version = some CONTEXT_VERSION

/-- `ScoutContext.get_scouts`: no version check; the stored list, or `[]`
when no snapshot loads. -/
def ctx_get_scouts (d : Option CtxData) : List ScoutEntry :=
  match d with
  | none => []
  | some c => c.scouts.getD []

/-- `ScoutContext.get_organizations`: no version check. -/
def ctx_get_organizations (d : Option CtxData) : List OrgEntry :=
  match d with
  | none => []
  | some c => c.organizations.getD []

/-- `ScoutContext.get_user`: no version check. -/
def ctx_get_user (d : Option CtxData) : Option UserSection :=
  match d with
  | none => none
  | some c => c.user

/-! ## Lemmas about the dict model -/

theorem lookupA_append_none {K V : Type} [DecidableEq K] (k : K)
    (l₁ l₂ : List (K × V)) (h : lookupA k l₁ = none) :
    lookupA k (l₁ ++ l₂) = lookupA k l₂ := by
  induction l₁ with
  | nil => simp
  | cons a rest ih =>
    obtain ⟨k', v⟩ := a
    by_cases hk : k' = k
    · simp [lookupA, hk] at h
    · simp only [lookupA, hk, if_false] at h
      simpa [lookupA, hk] using ih h

theorem lookupA_append_some {K V : Type} [DecidableEq K] (k : K)
    (l₁ l₂ : List (K × V)) (v : V) (h : lookupA k l₁ = some v) :
    lookupA k (l₁ ++ l₂) = some v := by
  induction l₁ with
  | nil => simp [lookupA] at h
  | cons a rest ih =>
    obtain ⟨k', w⟩ := a
    by_cases hk : k' = k
    · simp only [lookupA, hk, if_true] at h
      simpa [lookupA, hk] using h
    · simp only [lookupA, hk, if_false] at h
      simpa [lookupA, hk] using ih h

theorem lookupA_insertA_self {K V : Type} [DecidableEq K] (k : K) (v : V)
    (l : List (K × V)) (h : lookupA k l = none) :
    lookupA k (insertA k v l) = some v := by
  unfold insertA
  rw [lookupA_append_none k l _ h]
  simp [lookupA]

theorem keysA_cons {K V : Type} (a : K × V) (l : List (K × V)) :
    keysA (a :: l) = a.1 :: keysA l := rfl

theorem valuesA_cons {K V : Type} (a : K × V) (l : List (K × V)) :
    valuesA (a :: l) = a.2 :: valuesA l := rfl

theorem lookupA_insertA_ne {K V : Type} [DecidableEq K] {k k' : K} (v : V)
    (l : List (K × V)) (h : k' ≠ k) :
    lookupA k' (insertA k v l) = lookupA k' l := by
  unfold insertA
  cases hl : lookupA k' l with
  | some w => exact lookupA_append_some k' l _ w hl
  | none =>
    rw [lookupA_append_none k' l _ hl]
    simp only [lookupA]
    rw [if_neg (fun hh : k = k' => h hh.symm)]

theorem lookupA_updateA_self {K V : Type} [DecidableEq K] (k : K) (f : V → V)
    (l : List (K × V)) :
    lookupA k (updateA k f l) = (lookupA k l).map f := by
  induction l with
  | nil => rfl
  | cons a rest ih =>
    obtain ⟨k', v⟩ := a
    by_cases hk : k' = k
    · simp [updateA, lookupA, hk]
    · simp [updateA, lookupA, hk, ih]

theorem lookupA_updateA_ne {K V : Type} [DecidableEq K] {k k' : K} (f : V → V)
    (l : List (K × V)) (h : k' ≠ k) :
    lookupA k' (updateA k f l) = lookupA k' l := by
  induction l with
  | nil => rfl
  | cons a rest ih =>
    obtain ⟨k'', v⟩ := a
    by_cases hk : k'' = k
    · have hne : ¬ k'' = k' := fun hh => h (hh ▸ hk)
      simp only [updateA, if_pos hk, lookupA, if_neg hne]
    · by_cases hk' : k'' = k'
      · simp only [updateA, if_neg hk, lookupA, if_pos hk']
      · simp only [updateA, if_neg hk, lookupA, if_neg hk']
        exact ih

theorem keysA_insertA {K V : Type} (k : K) (v : V) (l : List (K × V)) :
    keysA (insertA k v l) = keysA l ++ [k] := by
  simp [insertA, keysA]

theorem keysA_updateA {K V : Type} [DecidableEq K] (k : K) (f : V → V)
    (l : List (K × V)) : keysA (updateA k f l) = keysA l := by
  induction l with
  | nil => rfl
  | cons a rest ih =>
    obtain ⟨k', v⟩ := a
    by_cases hk : k' = k
    · simp only [updateA, if_pos hk, keysA_cons]
    · simp only [updateA, if_neg hk, keysA_cons, ih]

theorem lookupA_eq_none_iff {K V : Type} [DecidableEq K] (k : K)
    (l : List (K × V)) : lookupA k l = none ↔ k ∉ keysA l := by
  induction l with
  | nil => simp [lookupA, keysA]
  | cons a rest ih =>
    obtain ⟨k', v⟩ := a
    by_cases hk : k' = k
    · subst hk
      simp [lookupA, keysA_cons]
    · have hk2 : ¬ k = k' := fun hh => hk hh.symm
      simp [lookupA, keysA_cons, hk, hk2, ih]

theorem lookupA_mem {K V : Type} [DecidableEq K] {k : K} {v : V}
    {l : List (K × V)} (h : lookupA k l = some v) : (k, v) ∈ l := by
  induction l with
  | nil => simp [lookupA] at h
  | cons a rest ih =>
    obtain ⟨k', w⟩ := a
    by_cases hk : k' = k
    · subst hk
      have hw : w = v := by simpa [lookupA] using h
      subst hw
      exact List.mem_cons_self _ _
    · have h' : lookupA k rest = some v := by simpa [lookupA, hk] using h
      exact List.mem_cons_of_mem _ (ih h')

theorem lookupA_isSome_iff {K V : Type} [DecidableEq K] (k : K)
    (l : List (K × V)) : (lookupA k l).isSome = true ↔ k ∈ keysA l := by
  cases hl : lookupA k l with
  | none =>
    simp only [Option.isSome_none, Bool.false_eq_true, false_iff]
    exact (lookupA_eq_none_iff k l).mp hl
  | some v =>
    simp only [Option.isSome_some, true_iff]
    exact List.mem_map_of_mem Prod.fst (lookupA_mem hl)

theorem mem_valuesA_of_lookupA {K V : Type} [DecidableEq K] {k : K} {v : V}
    {l : List (K × V)} (h : lookupA k l = some v) : v ∈ valuesA l := by
  have hm := lookupA_mem h
  exact List.mem_map_of_mem Prod.snd hm

theorem mem_updateA {K V : Type} [DecidableEq K] {p : K × V} {k : K}
    {f : V → V} {l : List (K × V)} (h : p ∈ updateA k f l) :
    p ∈ l ∨ ∃ v, (k, v) ∈ l ∧ p = (k, f v) := by
  induction l with
  | nil => simp [updateA] at h
  | cons a rest ih =>
    obtain ⟨k', w⟩ := a
    by_cases hk : k' = k
    · subst hk
      simp only [updateA, if_true] at h
      rcases List.mem_cons.mp h with h | h
      · exact Or.inr ⟨w, List.mem_cons_self _ _, h⟩
      · exact Or.inl (List.mem_cons_of_mem _ h)
    · simp only [updateA, hk, if_false] at h
      rcases List.mem_cons.mp h with h | h
      · exact Or.inl (by simp [h])
      · rcases ih h with h' | ⟨v, hv, hp⟩
        · exact Or.inl (List.mem_cons_of_mem _ h')
        · exact Or.inr ⟨v, List.mem_cons_of_mem _ hv, hp⟩

/-- Pointwise invariant preservation for an in-place update. -/
theorem inv_updateA {K V : Type} [DecidableEq K] (P : K × V → Prop) (k : K)
    (f : V → V) (l : List (K × V)) (hf : ∀ v, P (k, v) → P (k, f v))
    (hl : ∀ p ∈ l, P p) : ∀ p ∈ updateA k f l, P p := by
  intro p hp
  rcases mem_updateA hp with h | ⟨v, hv, hpv⟩
  · exact hl p h
  · subst hpv
    exact hf v (hl _ hv)

/-- Pointwise invariant preservation for an insertion. -/
theorem inv_insertA {K V : Type} (P : K × V → Prop) (k : K) (v : V)
    (l : List (K × V)) (hv : P (k, v)) (hl : ∀ p ∈ l, P p) :
    ∀ p ∈ insertA k v l, P p := by
  intro p hp
  rcases List.mem_append.mp hp with h | h
  · exact hl p h
  · simp at h
    subst h
    exact hv

/-- The key field of each value matching its key makes the filter over
values pick out exactly the looked-up entry, once keys are unique. -/
theorem filter_valuesA_eq {K V : Type} [DecidableEq K] (keyfn : V → K)
    (l : List (K × V)) (hkeys : (keysA l).Nodup)
    (hfield : ∀ p ∈ l, keyfn p.2 = p.1) (k : K) (v : V)
    (h : lookupA k l = some v) :
    (valuesA l).filter (fun x => decide (keyfn x = k)) = [v] := by
  induction l with
  | nil => simp [lookupA] at h
  | cons a rest ih =>
    obtain ⟨k', w⟩ := a
    have hkeys' : (keysA rest).Nodup := (List.nodup_cons.mp hkeys).2
    have hnot : k' ∉ keysA rest := (List.nodup_cons.mp hkeys).1
    have hfield' : ∀ p ∈ rest, keyfn p.2 = p.1 :=
      fun p hp => hfield p (List.mem_cons_of_mem _ hp)
    have hw : keyfn w = k' := hfield (k', w) (List.mem_cons_self _ _)
    by_cases hk : k' = k
    · subst hk
      have hwv : w = v := by simpa [lookupA] using h
      subst hwv
      rw [valuesA_cons, List.filter_cons_of_pos (by simp [hw])]
      have hrest : (valuesA rest).filter (fun x => decide (keyfn x = k')) = [] := by
        rw [List.filter_eq_nil_iff]
        intro x hx
        rcases List.mem_map.mp hx with ⟨⟨kx, vx⟩, hmem, hxv⟩
        have hfx : keyfn vx = kx := hfield' _ hmem
        have hkx : kx ∈ keysA rest := List.mem_map_of_mem Prod.fst hmem
        simp only [← hxv, hfx, decide_eq_true_eq]
        intro hkk
        exact hnot (hkk ▸ hkx)
      rw [hrest]
    · have h' : lookupA k rest = some v := by simpa [lookupA, hk] using h
      rw [valuesA_cons, List.filter_cons_of_neg (by simp [hw, hk])]
      exact ih hkeys' hfield' h'

/-! ## Lemmas about `pyStrip` -/

theorem strip_core_ne_nil (l : List Char) (c : Char) (hc : c ∈ l)
    (hw : c.isWhitespace = false) :
    ((l.dropWhile Char.isWhitespace).reverse.dropWhile Char.isWhitespace).reverse ≠ [] := by
  intro h
  have h0 : (l.dropWhile Char.isWhitespace).reverse.dropWhile Char.isWhitespace = [] := by
    have := congrArg List.reverse h
    simpa using this
  have h1 : l.dropWhile Char.isWhitespace ≠ [] := by
    intro hnil
    rw [List.dropWhile_eq_nil_iff] at hnil
    have := hnil c hc
    rw [hw] at this
    exact Bool.noConfusion this
  have hhead : ((l.dropWhile Char.isWhitespace).head h1).isWhitespace = false := by
    have := List.head_dropWhile_not Char.isWhitespace l h1
    simpa using this
  have hmem : (l.dropWhile Char.isWhitespace).head h1 ∈
      (l.dropWhile Char.isWhitespace).reverse := by
    simp [List.head_mem]
  rw [List.dropWhile_eq_nil_iff] at h0
  have := h0 _ hmem
  rw [hhead] at this
  exact Bool.noConfusion this

/-- A string containing a non-whitespace character survives `strip()`. -/
theorem pyStrip_ne_empty (s : String) (c : Char) (hc : c ∈ s.data)
    (hw : c.isWhitespace = false) : pyStrip s ≠ "" := by
  intro h
  have hd : (((s.data.dropWhile Char.isWhitespace).reverse.dropWhile
      Char.isWhitespace).reverse : List Char) = [] := by
    have := congrArg String.data h
    simpa [pyStrip] using this
  exact strip_core_ne_nil s.data c hc hw hd

/-! ## Lemmas about the dependent dedup fold (`stepSeen`) -/

/-- Entry invariant of the `seen` dict: the stored `personGuid` is the
entry's key and the accumulated positions stay duplicate-free. -/
def SeenEntryOk (p : Option String × ScoutEntry) : Prop :=
  p.2.personGuid = p.1 ∧ p.2.positions.Nodup

theorem stepSeen_entryOk (seen : List (Option String × ScoutEntry)) (s : RawScout)
    (h : ∀ p ∈ seen, SeenEntryOk p) : ∀ p ∈ stepSeen seen s, SeenEntryOk p := by
  cases hl : lookupA s.personGuid seen with
  | none =>
    simp only [stepSeen, hl]
    exact inv_insertA _ _ _ _ ⟨rfl, List.nodup_singleton _⟩ h
  | some e0 =>
    cases hp : s.position with
    | none => simpa only [stepSeen, hl, hp] using h
    | some p =>
      by_cases hpe : p = ""
      · simpa only [stepSeen, hl, hp, if_pos hpe] using h
      · simp only [stepSeen, hl, hp, if_neg hpe]
        refine inv_updateA _ _ _ _ ?_ h
        intro v hv
        by_cases hmem : some p ∈ v.positions
        · simpa only [if_pos hmem] using hv
        · constructor
          · simpa only [if_neg hmem] using hv.1
          · simp only [if_neg hmem]
            refine List.Nodup.append hv.2 (List.nodup_singleton _) ?_
            intro x hx hx'
            simp only [List.mem_singleton] at hx'
            subst hx'
            exact hmem hx

theorem keysA_stepSeen_nodup (seen : List (Option String × ScoutEntry))
    (s : RawScout) (h : (keysA seen).Nodup) : (keysA (stepSeen seen s)).Nodup := by
  cases hl : lookupA s.personGuid seen with
  | none =>
    have hpg : s.personGuid ∉ keysA seen := (lookupA_eq_none_iff _ _).mp hl
    simp only [stepSeen, hl, keysA_insertA]
    simp [List.nodup_append, h, hpg]
  | some e0 =>
    cases hp : s.position with
    | none => simpa only [stepSeen, hl, hp] using h
    | some p =>
      by_cases hpe : p = ""
      · simpa only [stepSeen, hl, hp, if_pos hpe] using h
      · simpa only [stepSeen, hl, hp, if_neg hpe, keysA_updateA] using h

theorem stepSeen_pos_preserved (seen : List (Option String × ScoutEntry))
    (s : RawScout) (k : Option String) (e : ScoutEntry) (q : Option String)
    (h : lookupA k seen = some e) (hq : q ∈ e.positions) :
    ∃ e', lookupA k (stepSeen seen s) = some e' ∧ q ∈ e'.positions := by
  by_cases hk : k = s.personGuid
  · subst hk
    cases hp : s.position with
    | none => exact ⟨e, by simp only [stepSeen, h, hp], hq⟩
    | some p =>
      by_cases hpe : p = ""
      · exact ⟨e, by simp only [stepSeen, h, hp, if_pos hpe], hq⟩
      · refine ⟨if some p ∈ e.positions then e
          else { e with positions := e.positions ++ [some p] }, ?_, ?_⟩
        · simp only [stepSeen, h, hp, if_neg hpe]
          rw [lookupA_updateA_self, h]
          rfl
        · by_cases hmem : some p ∈ e.positions
          · simp only [if_pos hmem]
            exact hq
          · simp only [if_neg hmem]
            exact List.mem_append_left _ hq
  · have hsame : lookupA k (stepSeen seen s) = lookupA k seen := by
      cases hl : lookupA s.personGuid seen with
      | none =>
        simp only [stepSeen, hl]
        exact lookupA_insertA_ne _ _ hk
      | some e0 =>
        cases hp : s.position with
        | none => simp only [stepSeen, hl, hp]
        | some p =>
          by_cases hpe : p = ""
          · simp only [stepSeen, hl, hp, if_pos hpe]
          · simp only [stepSeen, hl, hp, if_neg hpe]
            exact lookupA_updateA_ne _ _ hk
    exact ⟨e, by rw [hsame]; exact h, hq⟩

theorem stepSeen_estab (seen : List (Option String × ScoutEntry)) (s : RawScout)
    (p : String) (hp : s.position = some p) (hpe : p ≠ "") :
    ∃ e, lookupA s.personGuid (stepSeen seen s) = some e ∧ some p ∈ e.positions := by
  cases hl : lookupA s.personGuid seen with
  | none =>
    refine ⟨mkScoutEntry s, ?_, ?_⟩
    · simp only [stepSeen, hl]
      exact lookupA_insertA_self _ _ _ hl
    · simp [mkScoutEntry, hp]
  | some e0 =>
    refine ⟨if some p ∈ e0.positions then e0
      else { e0 with positions := e0.positions ++ [some p] }, ?_, ?_⟩
    · simp only [stepSeen, hl, hp, if_neg hpe]
      rw [lookupA_updateA_self, hl]
      rfl
    · by_cases hmem : some p ∈ e0.positions
      · simp only [if_pos hmem]
        exact hmem
      · simp only [if_neg hmem]
        exact List.mem_append_right _ (List.mem_cons_self _ _)

theorem foldSeen_pos_preserved (raw : List RawScout) :
    ∀ (seen : List (Option String × ScoutEntry)) (k : Option String)
      (e : ScoutEntry) (q : Option String), lookupA k seen = some e →
      q ∈ e.positions →
      ∃ e', lookupA k (raw.foldl stepSeen seen) = some e' ∧ q ∈ e'.positions := by
  induction raw with
  | nil => exact fun seen k e q h hq => ⟨e, h, hq⟩
  | cons s rest ih =>
    intro seen k e q h hq
    obtain ⟨e1, h1, hq1⟩ := stepSeen_pos_preserved seen s k e q h hq
    simp only [List.foldl_cons]
    exact ih _ k e1 q h1 hq1

theorem foldSeen_estab (raw : List RawScout) :
    ∀ (seen : List (Option String × ScoutEntry)) (r : RawScout) (p : String),
      r ∈ raw → r.position = some p → p ≠ "" →
      ∃ e, lookupA r.personGuid (raw.foldl stepSeen seen) = some e ∧
        some p ∈ e.positions := by
  induction raw with
  | nil => intro _ r _ h; simp at h
  | cons s rest ih =>
    intro seen r p hr hp hpe
    rcases List.mem_cons.mp hr with hh | hh
    · subst hh
      obtain ⟨e, he, hm⟩ := stepSeen_estab seen r p hp hpe
      simp only [List.foldl_cons]
      exact foldSeen_pos_preserved rest _ _ e _ he hm
    · simp only [List.foldl_cons]
      exact ih _ r p hh hp hpe

theorem foldSeen_inv (raw : List RawScout) :
    ∀ seen, (keysA seen).Nodup → (∀ p ∈ seen, SeenEntryOk p) →
      (keysA (raw.foldl stepSeen seen)).Nodup ∧
      ∀ p ∈ raw.foldl stepSeen seen, SeenEntryOk p := by
  induction raw with
  | nil => exact fun seen h1 h2 => ⟨h1, h2⟩
  | cons s rest ih =>
    intro seen h1 h2
    simp only [List.foldl_cons]
    exact ih _ (keysA_stepSeen_nodup seen s h1) (stepSeen_entryOk seen s h2)

/-! ## Generic fold combinators -/

theorem foldl_preserves {S A : Type} (P : S → Prop) (step : S → A → S)
    (l : List A) (hstep : ∀ s a, P s → P (step s a)) :
    ∀ s, P s → P (List.foldl step s l) := by
  induction l with
  | nil => exact fun s h => h
  | cons a rest ih =>
    intro s h
    simp only [List.foldl_cons]
    exact ih _ (hstep s a h)

theorem keysA_foldl {A : Type} (step : List (String × OrgEntry) → A → List (String × OrgEntry))
    (hstep : ∀ orgs a, keysA (step orgs a) = keysA orgs) (l : List A) :
    ∀ orgs, keysA (List.foldl step orgs l) = keysA orgs := by
  induction l with
  | nil => exact fun orgs => rfl
  | cons a rest ih =>
    intro orgs
    simp only [List.foldl_cons]
    rw [ih _, hstep]

/-- A per-key predicate carried through a fold whose every step preserves
it at the looked-up entry. -/
theorem foldl_lookup_pred {A : Type} (g : String) (P : OrgEntry → Prop)
    (step : List (String × OrgEntry) → A → List (String × OrgEntry))
    (hstep : ∀ orgs a e, lookupA g orgs = some e → P e →
      ∃ e', lookupA g (step orgs a) = some e' ∧ P e')
    (l : List A) :
    ∀ orgs e, lookupA g orgs = some e → P e →
      ∃ e', lookupA g (List.foldl step orgs l) = some e' ∧ P e' := by
  induction l with
  | nil => exact fun orgs e h hp => ⟨e, h, hp⟩
  | cons a rest ih =>
    intro orgs e h hp
    obtain ⟨e1, h1, hp1⟩ := hstep orgs a e h hp
    simp only [List.foldl_cons]
    exact ih _ e1 h1 hp1

/-! ## Lemmas about the organization dict -/

/-- Invariant of the `orgs` dict: keys unique and every entry's `orgGuid`
is its key. -/
def OrgsInv (orgs : List (String × OrgEntry)) : Prop :=
  (keysA orgs).Nodup ∧ ∀ p ∈ orgs, p.2.orgGuid = p.1

theorem OrgsInv_nil : OrgsInv [] := by
  constructor
  · exact List.nodup_nil
  · intro p hp
    simp at hp

theorem OrgsInv_updateA (k : String) (f : OrgEntry → OrgEntry)
    (orgs : List (String × OrgEntry)) (hf : ∀ e, (f e).orgGuid = e.orgGuid)
    (h : OrgsInv orgs) : OrgsInv (updateA k f orgs) := by
  constructor
  · rw [keysA_updateA]
    exact h.1
  · refine inv_updateA _ _ _ _ ?_ h.2
    intro v hv
    show (f v).orgGuid = k
    rw [hf]
    exact hv

theorem OrgsInv_insertA (k : String) (v : OrgEntry)
    (orgs : List (String × OrgEntry)) (hl : lookupA k orgs = none)
    (hv : v.orgGuid = k) (h : OrgsInv orgs) : OrgsInv (insertA k v orgs) := by
  constructor
  · rw [keysA_insertA]
    have hk : k ∉ keysA orgs := (lookupA_eq_none_iff _ _).mp hl
    simp [List.nodup_append, h.1, hk]
  · exact inv_insertA _ _ _ _ hv h.2

theorem seedOrg_inv (orgs : List (String × OrgEntry)) (op : OrgPos)
    (h : OrgsInv orgs) : OrgsInv (seedOrg orgs op) := by
  cases hg : op.organizationGuid with
  | none => simpa only [seedOrg, hg] using h
  | some g =>
    by_cases hge : g = ""
    · simpa only [seedOrg, hg, if_pos hge] using h
    · simp only [seedOrg, hg, if_neg hge]
      refine foldl_preserves OrgsInv _ _ ?_ _ ?_
      · intro orgs' pos h'
        cases pos with
        | none => exact h'
        | some p =>
          by_cases hpe : p = ""
          · simpa only [if_pos hpe] using h'
          · simp only [if_neg hpe]
            refine OrgsInv_updateA _ _ _ ?_ h'
            intro e
            by_cases hm : p ∈ e.roles <;> simp [hm]
      · cases hl : lookupA g orgs with
        | none => exact OrgsInv_insertA _ _ _ hl rfl h
        | some e => exact h

theorem stepOrgFromScout_inv (orgs : List (String × OrgEntry)) (s : RawScout)
    (h : OrgsInv orgs) : OrgsInv (stepOrgFromScout orgs s) := by
  cases hg : s.orgGuid with
  | none => simpa only [stepOrgFromScout, hg] using h
  | some g =>
    by_cases hge : g = ""
    · simpa only [stepOrgFromScout, hg, if_pos hge] using h
    · simp only [stepOrgFromScout, hg, if_neg hge]
      cases hl : lookupA g orgs with
      | none => exact OrgsInv_insertA _ _ _ hl rfl h
      | some e =>
        by_cases hm : "Parent/Guardian" ∈ e.roles
        · simpa only [if_pos hm] using h
        · simp only [if_neg hm]
          exact OrgsInv_updateA _ _ _ (fun e' => rfl) h

theorem addRef_inv (orgs : List (String × OrgEntry)) (sc : ScoutEntry)
    (h : OrgsInv orgs) : OrgsInv (addRef orgs sc) := by
  cases hg : sc.orgGuid with
  | none => simpa only [addRef, hg] using h
  | some g =>
    by_cases hge : g = ""
    · simpa only [addRef, hg, if_pos hge] using h
    · simp only [addRef, hg, if_neg hge]
      cases hl : lookupA g orgs with
      | none => exact h
      | some e =>
        refine OrgsInv_updateA _ _ _ ?_ h
        intro e'
        by_cases hm : sc.userId ∈ e'.scouts.map OrgScoutRef.userId <;> simp [hm]

theorem progStep_inv (orgs : List (String × OrgEntry)) (r : RoleRec)
    (h : OrgsInv orgs) : OrgsInv (progStep orgs r) := by
  cases hg : r.organizationGuid with
  | none => simpa only [progStep, hg] using h
  | some g =>
    by_cases hge : g = ""
    · simpa only [progStep, hg, if_pos hge] using h
    · simp only [progStep, hg, if_neg hge]
      cases hl : lookupA g orgs with
      | none => exact h
      | some e =>
        cases hpt : r.programType with
        | none => exact h
        | some p =>
          by_cases hpe : p = ""
          · simpa only [if_pos hpe] using h
          · simp only [if_neg hpe]
            by_cases hprog : e.program = none
            · simp only [if_pos hprog]
              exact OrgsInv_updateA g
                (fun e' => { e' with program := some (some p) }) orgs (fun e' => rfl) h
            · simpa only [if_neg hprog] using h

theorem seedOrgsFromProfile_inv (uid : Option Nat)
    (profileResult : Except Unit Profile) :
    OrgsInv (seedOrgsFromProfile uid profileResult) := by
  unfold seedOrgsFromProfile
  by_cases hu : truthyN uid = true
  · rw [if_pos hu]
    cases profileResult with
    | ok profile =>
      exact foldl_preserves OrgsInv _ _ (fun o a h => seedOrg_inv o a h) _ OrgsInv_nil
    | error e => exact OrgsInv_nil
  · rw [if_neg hu]
    exact OrgsInv_nil

theorem scoutsStage_inv (uid : Option Nat) (scoutsResult : Except Unit (List RawScout))
    (orgs0 : List (String × OrgEntry)) (h : OrgsInv orgs0) :
    OrgsInv (scoutsStage uid scoutsResult orgs0).2 := by
  unfold scoutsStage
  by_cases hu : truthyN uid = true
  · rw [if_pos hu]
    cases scoutsResult with
    | ok raw =>
      refine foldl_preserves OrgsInv _ _ (fun o a hh => addRef_inv o a hh) _ ?_
      exact foldl_preserves OrgsInv _ _ (fun o a hh => stepOrgFromScout_inv o a hh) _ h
    | error e => exact h
  · rw [if_neg hu]
    exact h

theorem rolesStage_inv (pgu : Option String) (rolesResult : Except Unit (List RoleRec))
    (orgs : List (String × OrgEntry)) (h : OrgsInv orgs) :
    OrgsInv (rolesStage pgu rolesResult orgs) := by
  unfold rolesStage
  by_cases hp : truthyS pgu = true
  · rw [if_pos hp]
    cases rolesResult with
    | ok roles =>
      exact foldl_preserves OrgsInv _ _ (fun o a hh => progStep_inv o a hh) _ h
    | error e => exact h
  · rw [if_neg hp]
    exact h

theorem orgGuids_eq_keysA (orgs : List (String × OrgEntry))
    (h : ∀ p ∈ orgs, p.2.orgGuid = p.1) :
    (valuesA orgs).map OrgEntry.orgGuid = keysA orgs := by
  induction orgs with
  | nil => rfl
  | cons a rest ih =>
    obtain ⟨k, v⟩ := a
    simp only [valuesA_cons, keysA_cons, List.map_cons]
    rw [h (k, v) (List.mem_cons_self _ _)]
    rw [ih (fun p hp => h p (List.mem_cons_of_mem _ hp))]

/-! ## Key-set stability and referencing lemmas -/

theorem keysA_addRef (orgs : List (String × OrgEntry)) (sc : ScoutEntry) :
    keysA (addRef orgs sc) = keysA orgs := by
  cases hg : sc.orgGuid with
  | none => simp only [addRef, hg]
  | some g =>
    by_cases hge : g = ""
    · simp only [addRef, hg, if_pos hge]
    · simp only [addRef, hg, if_neg hge]
      cases hl : lookupA g orgs with
      | none => rfl
      | some e => exact keysA_updateA _ _ _

theorem keysA_progStep (orgs : List (String × OrgEntry)) (r : RoleRec) :
    keysA (progStep orgs r) = keysA orgs := by
  cases hg : r.organizationGuid with
  | none => simp only [progStep, hg]
  | some g =>
    by_cases hge : g = ""
    · simp only [progStep, hg, if_pos hge]
    · simp only [progStep, hg, if_neg hge]
      cases hl : lookupA g orgs with
      | none => rfl
      | some e =>
        cases hpt : r.programType with
        | none => rfl
        | some p =>
          by_cases hpe : p = ""
          · simp only [if_pos hpe]
          · simp only [if_neg hpe]
            by_cases hprog : e.program = none
            · simp only [if_pos hprog]
              exact keysA_updateA _ _ _
            · simp only [if_neg hprog]

theorem keysA_rolesStage (pgu : Option String)
    (rolesResult : Except Unit (List RoleRec)) (orgs : List (String × OrgEntry)) :
    keysA (rolesStage pgu rolesResult orgs) = keysA orgs := by
  unfold rolesStage
  by_cases hp : truthyS pgu = true
  · rw [if_pos hp]
    cases rolesResult with
    | ok roles => exact keysA_foldl _ (fun o a => keysA_progStep o a) _ _
    | error e => rfl
  · rw [if_neg hp]

theorem stepOrgFromScout_isSome_mono (orgs : List (String × OrgEntry))
    (s : RawScout) (g : String) (h : (lookupA g orgs).isSome = true) :
    (lookupA g (stepOrgFromScout orgs s)).isSome = true := by
  cases hg : s.orgGuid with
  | none => simpa only [stepOrgFromScout, hg] using h
  | some g' =>
    by_cases hge : g' = ""
    · simpa only [stepOrgFromScout, hg, if_pos hge] using h
    · simp only [stepOrgFromScout, hg, if_neg hge]
      cases hl : lookupA g' orgs with
      | none =>
        by_cases hgg : g = g'
        · subst hgg
          rw [lookupA_insertA_self _ _ _ hl]
          rfl
        · rw [lookupA_insertA_ne _ _ hgg]
          exact h
      | some e =>
        by_cases hm : "Parent/Guardian" ∈ e.roles
        · simpa only [if_pos hm] using h
        · simp only [if_neg hm]
          by_cases hgg : g = g'
          · subst hgg
            rw [lookupA_updateA_self, hl]
            rfl
          · rw [lookupA_updateA_ne _ _ hgg]
            exact h

theorem stepOrgFromScout_self (orgs : List (String × OrgEntry)) (s : RawScout)
    (g : String) (hg : s.orgGuid = some g) (hge : g ≠ "") :
    (lookupA g (stepOrgFromScout orgs s)).isSome = true := by
  simp only [stepOrgFromScout, hg, if_neg hge]
  cases hl : lookupA g orgs with
  | none =>
    rw [lookupA_insertA_self _ _ _ hl]
    rfl
  | some e =>
    by_cases hm : "Parent/Guardian" ∈ e.roles
    · simp only [if_pos hm]
      rw [hl]
      rfl
    · simp only [if_neg hm]
      rw [lookupA_updateA_self, hl]
      rfl

/-- The per-entry referencing condition: every truthy `orgGuid` held in
`seen` names a key of `orgs`. -/
def RefInvP (orgs : List (String × OrgEntry))
    (p : Option String × ScoutEntry) : Prop :=
  ∀ g, p.2.orgGuid = some g → g ≠ "" → (lookupA g orgs).isSome = true

theorem refInv_step (seen : List (Option String × ScoutEntry))
    (orgs : List (String × OrgEntry)) (s : RawScout)
    (h : ∀ p ∈ seen, RefInvP orgs p) :
    ∀ p ∈ stepSeen seen s, RefInvP (stepOrgFromScout orgs s) p := by
  intro p hp
  cases hl : lookupA s.personGuid seen with
  | none =>
    simp only [stepSeen, hl] at hp
    rcases List.mem_append.mp hp with hh | hh
    · intro g hg hge
      exact stepOrgFromScout_isSome_mono orgs s g (h p hh g hg hge)
    · simp only [List.mem_singleton] at hh
      subst hh
      intro g hg hge
      exact stepOrgFromScout_self orgs s g hg hge
  | some e0 =>
    cases hpos : s.position with
    | none =>
      simp only [stepSeen, hl, hpos] at hp
      intro g hg hge
      exact stepOrgFromScout_isSome_mono orgs s g (h p hp g hg hge)
    | some q =>
      by_cases hqe : q = ""
      · simp only [stepSeen, hl, hpos, if_pos hqe] at hp
        intro g hg hge
        exact stepOrgFromScout_isSome_mono orgs s g (h p hp g hg hge)
      · simp only [stepSeen, hl, hpos, if_neg hqe] at hp
        rcases mem_updateA hp with hh | ⟨v, hv, hpv⟩
        · intro g hg hge
          exact stepOrgFromScout_isSome_mono orgs s g (h p hh g hg hge)
        · subst hpv
          intro g hg hge
          have hvg : v.orgGuid = some g := by
            by_cases hm : some q ∈ v.positions
            · simpa only [if_pos hm] using hg
            · simpa only [if_neg hm] using hg
          exact stepOrgFromScout_isSome_mono orgs s g
            (h (s.personGuid, v) hv g hvg hge)

theorem refInv_fold (raw : List RawScout) :
    ∀ (seen : List (Option String × ScoutEntry)) (orgs : List (String × OrgEntry)),
      (∀ p ∈ seen, RefInvP orgs p) →
      ∀ p ∈ raw.foldl stepSeen seen,
        RefInvP (raw.foldl stepOrgFromScout orgs) p := by
  induction raw with
  | nil => exact fun seen orgs h => h
  | cons s rest ih =>
    intro seen orgs h
    simp only [List.foldl_cons]
    exact ih _ _ (refInv_step seen orgs s h)

/-! ## Frame lemmas for the later passes over `orgs` -/

/-- What the scout-summary pass leaves untouched: everything except the
`scouts` field. -/
def SameButScouts (e e' : OrgEntry) : Prop :=
  e'.orgGuid = e.orgGuid ∧ e'.name = e.name ∧ e'.unitType = e.unitType ∧
  e'.unitNumber = e.unitNumber ∧ e'.program = e.program ∧ e'.roles = e.roles

theorem sameButScouts_refl (e : OrgEntry) : SameButScouts e e := by
  unfold SameButScouts
  exact ⟨rfl, rfl, rfl, rfl, rfl, rfl⟩

theorem sameButScouts_trans {a b c : OrgEntry} (h1 : SameButScouts a b)
    (h2 : SameButScouts b c) : SameButScouts a c := by
  obtain ⟨a1, b1, c1, d1, p1, r1⟩ := h1
  obtain ⟨a2, b2, c2, d2, p2, r2⟩ := h2
  exact ⟨a2.trans a1, b2.trans b1, c2.trans c1, d2.trans d1, p2.trans p1, r2.trans r1⟩

theorem addRef_frame (orgs : List (String × OrgEntry)) (sc : ScoutEntry)
    (g : String) (e : OrgEntry) (h : lookupA g orgs = some e) :
    ∃ e', lookupA g (addRef orgs sc) = some e' ∧ SameButScouts e e' := by
  cases hg : sc.orgGuid with
  | none => exact ⟨e, by simp only [addRef, hg]; exact h, sameButScouts_refl e⟩
  | some g' =>
    by_cases hge : g' = ""
    · exact ⟨e, by simp only [addRef, hg, if_pos hge]; exact h, sameButScouts_refl e⟩
    · by_cases hgg : g = g'
      · subst hgg
        simp only [addRef, hg, if_neg hge, h]
        refine ⟨if sc.userId ∈ e.scouts.map OrgScoutRef.userId then e
          else { e with scouts := e.scouts ++
            [{ name := sc.fullName, userId := sc.userId, memberId := sc.memberId }] },
          ?_, ?_⟩
        · rw [lookupA_updateA_self, h]
          rfl
        · by_cases hm : sc.userId ∈ e.scouts.map OrgScoutRef.userId
          · simp only [if_pos hm]
            exact sameButScouts_refl e
          · simp only [if_neg hm]
            exact ⟨rfl, rfl, rfl, rfl, rfl, rfl⟩
      · refine ⟨e, ?_, sameButScouts_refl e⟩
        simp only [addRef, hg, if_neg hge]
        cases hl : lookupA g' orgs with
        | none => exact h
        | some e0 =>
          rw [lookupA_updateA_ne _ _ hgg]
          exact h

theorem addRef_fold_frame (scs : List ScoutEntry) :
    ∀ (orgs : List (String × OrgEntry)) (g : String) (e : OrgEntry),
      lookupA g orgs = some e →
      ∃ e', lookupA g (scs.foldl addRef orgs) = some e' ∧ SameButScouts e e' := by
  induction scs with
  | nil => exact fun orgs g e h => ⟨e, h, sameButScouts_refl e⟩
  | cons sc rest ih =>
    intro orgs g e h
    obtain ⟨e1, h1, f1⟩ := addRef_frame orgs sc g e h
    obtain ⟨e2, h2, f2⟩ := ih _ g e1 h1
    exact ⟨e2, by simpa only [List.foldl_cons] using h2, sameButScouts_trans f1 f2⟩

/-- One role-merge step, seen from a fixed organization entry: the entry
keeps every field except possibly a missing `program` being filled from
the step's role record. -/
theorem progStep_frame (orgs : List (String × OrgEntry)) (r : RoleRec)
    (g : String) (e : OrgEntry) (h : lookupA g orgs = some e) :
    ∃ e', lookupA g (progStep orgs r) = some e' ∧
      e'.orgGuid = e.orgGuid ∧ e'.name = e.name ∧ e'.unitType = e.unitType ∧
      e'.unitNumber = e.unitNumber ∧ e'.roles = e.roles ∧ e'.scouts = e.scouts ∧
      (e.program ≠ none → e' = e) ∧
      (e'.program = e.program ∨
        (e.program = none ∧ ∃ p, r.organizationGuid = some g ∧
          r.programType = some p ∧ p ≠ "" ∧ e'.program = some (some p))) := by
  cases hg : r.organizationGuid with
  | none =>
    exact ⟨e, by simp only [progStep, hg]; exact h,
      rfl, rfl, rfl, rfl, rfl, rfl, fun _ => rfl, Or.inl rfl⟩
  | some g' =>
    by_cases hge : g' = ""
    · exact ⟨e, by simp only [progStep, hg, if_pos hge]; exact h,
        rfl, rfl, rfl, rfl, rfl, rfl, fun _ => rfl, Or.inl rfl⟩
    · by_cases hgg : g = g'
      · subst hgg
        cases hpt : r.programType with
        | none =>
          refine ⟨e, ?_, rfl, rfl, rfl, rfl, rfl, rfl, fun _ => rfl, Or.inl rfl⟩
          simp only [progStep, hg, if_neg hge, h, hpt]
        | some p =>
          by_cases hpe : p = ""
          · refine ⟨e, ?_, rfl, rfl, rfl, rfl, rfl, rfl, fun _ => rfl, Or.inl rfl⟩
            simp only [progStep, hg, if_neg hge, h, hpt, if_pos hpe]
          · by_cases hprog : e.program = none
            · refine ⟨{ e with program := some (some p) }, ?_, rfl, rfl, rfl, rfl,
                rfl, rfl, fun hc => absurd hprog hc, Or.inr ⟨hprog, p, rfl, rfl, hpe, rfl⟩⟩
              simp only [progStep, hg, if_neg hge, h, hpt, if_neg hpe, if_pos hprog]
              rw [lookupA_updateA_self, h]
              rfl
            · refine ⟨e, ?_, rfl, rfl, rfl, rfl, rfl, rfl, fun _ => rfl, Or.inl rfl⟩
              simp only [progStep, hg, if_neg hge, h, hpt, if_neg hpe, if_neg hprog]
      · refine ⟨e, ?_, rfl, rfl, rfl, rfl, rfl, rfl, fun _ => rfl, Or.inl rfl⟩
        simp only [progStep, hg, if_neg hge]
        cases hl : lookupA g' orgs with
        | none => exact h
        | some e0 =>
          cases hpt : r.programType with
          | none => exact h
          | some p =>
            by_cases hpe : p = ""
            · simp only [if_pos hpe]
              exact h
            · simp only [if_neg hpe]
              by_cases hprog : e0.program = none
              · simp only [if_pos hprog]
                rw [lookupA_updateA_ne _ _ hgg]
                exact h
              · simp only [if_neg hprog]
                exact h

/-- The whole role-merge pass, seen from a fixed organization entry. -/
theorem progFold_frame (roles : List RoleRec) :
    ∀ (orgs : List (String × OrgEntry)) (g : String) (e : OrgEntry),
      lookupA g orgs = some e →
      ∃ e', lookupA g (roles.foldl progStep orgs) = some e' ∧
        e'.orgGuid = e.orgGuid ∧ e'.name = e.name ∧ e'.unitType = e.unitType ∧
        e'.unitNumber = e.unitNumber ∧ e'.roles = e.roles ∧ e'.scouts = e.scouts ∧
        (e.program ≠ none → e' = e) ∧
        (e.program = none →
          e'.program = none ∨
          ∃ rr ∈ roles, ∃ p, rr.organizationGuid = some g ∧
            rr.programType = some p ∧ p ≠ "" ∧ e'.program = some (some p)) := by
  induction roles with
  | nil =>
    intro orgs g e h
    exact ⟨e, h, rfl, rfl, rfl, rfl, rfl, rfl, fun _ => rfl, fun hp => Or.inl hp⟩
  | cons r rest ih =>
    intro orgs g e h
    obtain ⟨e1, h1, a1, b1, c1, d1, r1, s1, u1, w1⟩ := progStep_frame orgs r g e h
    obtain ⟨e2, h2, a2, b2, c2, d2, r2, s2, u2, w2⟩ := ih _ g e1 h1
    refine ⟨e2, by simpa only [List.foldl_cons] using h2,
      a2.trans a1, b2.trans b1, c2.trans c1, d2.trans d1, r2.trans r1,
      s2.trans s1, ?_, ?_⟩
    · intro hne
      have he1 : e1 = e := u1 hne
      subst he1
      exact u2 hne
    · intro hp
      rcases w1 with hw | ⟨_, p, hrg, hrp, hpe, he1p⟩
      · have h1p : e1.program = none := hw.trans hp
        rcases w2 h1p with hw2 | ⟨rr, hrr, hrest⟩
        · exact Or.inl hw2
        · exact Or.inr ⟨rr, List.mem_cons_of_mem _ hrr, hrest⟩
      · have h1ne : e1.program ≠ none := by
          rw [he1p]
          exact Option.some_ne_none _
        have he2 : e2 = e1 := u2 h1ne
        subst he2
        exact Or.inr ⟨r, List.mem_cons_self _ _, p, hrg, hrp, hpe, he1p⟩

/-! ## Lemmas about `get_token`'s control flow -/

theorem get_token_fallthrough_some (parseIso : String → Option Int) (now : Int)
    (r : TokenData) :
    get_token_fallthrough parseIso now (some r) =
      if is_expired parseIso now r = true then
        GetTokenOutcome.authError (expiredMsg r)
      else GetTokenOutcome.authError "No authentication token found." := rfl

theorem fallthrough_is_authError (parseIso : String → Option Int) (now : Int)
    (cached : Option TokenData) :
    ∃ msg, get_token_fallthrough parseIso now cached =
      GetTokenOutcome.authError msg := by
  cases cached with
  | none => exact ⟨_, rfl⟩
  | some r =>
    rw [get_token_fallthrough_some]
    by_cases he : is_expired parseIso now r = true
    · rw [if_pos he]
      exact ⟨_, rfl⟩
    · rw [if_neg he]
      exact ⟨_, rfl⟩

theorem browser_phase_cases (parseIso : String → Option Int) (now : Int)
    (dec : String → Option JwtClaims) (fromTimestamp : Int → String) (nowIso : String)
    (cached : Option TokenData) (noBrowser : Bool)
    (browserResult : Except BrowserAuthErrorS String) :
    (∃ t, get_token_browser_phase parseIso now dec fromTimestamp nowIso cached
        noBrowser browserResult = GetTokenOutcome.okBrowser t) ∨
    get_token_browser_phase parseIso now dec fromTimestamp nowIso cached
        noBrowser browserResult = get_token_fallthrough parseIso now cached := by
  unfold get_token_browser_phase
  by_cases hb : noBrowser = true
  · rw [if_pos hb]
    exact Or.inr rfl
  · rw [if_neg hb]
    cases browserResult with
    | error e => exact Or.inr rfl
    | ok t =>
      cases hl : login_with_token dec fromTimestamp nowIso t with
      | ok r => exact Or.inl ⟨t, by simp only [hl]⟩
      | error e => exact Or.inr (by simp only [hl])

theorem browser_phase_ne_okCache (parseIso : String → Option Int) (now : Int)
    (dec : String → Option JwtClaims) (fromTimestamp : Int → String) (nowIso : String)
    (cached : Option TokenData) (noBrowser : Bool)
    (browserResult : Except BrowserAuthErrorS String) (t : String) :
    get_token_browser_phase parseIso now dec fromTimestamp nowIso cached
      noBrowser browserResult ≠ GetTokenOutcome.okCache t := by
  rcases browser_phase_cases parseIso now dec fromTimestamp nowIso cached
      noBrowser browserResult with ⟨t', ht'⟩ | hf
  · rw [ht']
    intro hc
    exact GetTokenOutcome.noConfusion hc
  · obtain ⟨msg, hm⟩ := fallthrough_is_authError parseIso now cached
    rw [hf, hm]
    intro hc
    exact GetTokenOutcome.noConfusion hc

theorem browser_phase_ne_browserError (parseIso : String → Option Int) (now : Int)
    (dec : String → Option JwtClaims) (fromTimestamp : Int → String) (nowIso : String)
    (cached : Option TokenData) (noBrowser : Bool)
    (browserResult : Except BrowserAuthErrorS String) (e : BrowserAuthErrorS) :
    get_token_browser_phase parseIso now dec fromTimestamp nowIso cached
      noBrowser browserResult ≠ GetTokenOutcome.browserError e := by
  rcases browser_phase_cases parseIso now dec fromTimestamp nowIso cached
      noBrowser browserResult with ⟨t', ht'⟩ | hf
  · rw [ht']
    intro hc
    exact GetTokenOutcome.noConfusion hc
  · obtain ⟨msg, hm⟩ := fallthrough_is_authError parseIso now cached
    rw [hf, hm]
    intro hc
    exact GetTokenOutcome.noConfusion hc

theorem browser_phase_error (parseIso : String → Option Int) (now : Int)
    (dec : String → Option JwtClaims) (fromTimestamp : Int → String) (nowIso : String)
    (cached : Option TokenData) (noBrowser : Bool) (e : BrowserAuthErrorS) :
    get_token_browser_phase parseIso now dec fromTimestamp nowIso cached
      noBrowser (Except.error e) = get_token_fallthrough parseIso now cached := by
  unfold get_token_browser_phase
  by_cases hb : noBrowser = true
  · rw [if_pos hb]
  · rw [if_neg hb]

theorem is_expired_eq_none (parseIso : String → Option Int) (now : Int)
    (r : TokenData) (h : r.expires_at = none) :
    is_expired parseIso now r = true := by
  unfold is_expired
  rw [h]

theorem is_expired_eq_some (parseIso : String → Option Int) (now : Int)
    (r : TokenData) (s : String) (h : r.expires_at = some s) :
    is_expired parseIso now r =
      if s = "" then true
      else
        match parseIso s with
        | none => true
        | some e => decide (now ≥ e) := by
  unfold is_expired
  rw [h]

theorem get_token_some (parseIso : String → Option Int) (now : Int)
    (dec : String → Option JwtClaims) (fromTimestamp : Int → String) (nowIso : String)
    (r : TokenData) (noBrowser : Bool)
    (browserResult : Except BrowserAuthErrorS String) :
    get_token parseIso now dec fromTimestamp nowIso (some r) noBrowser browserResult =
      if is_expired parseIso now r = true then
        get_token_browser_phase parseIso now dec fromTimestamp nowIso (some r)
          noBrowser browserResult
      else GetTokenOutcome.okCache r.token := rfl

theorem get_token_none (parseIso : String → Option Int) (now : Int)
    (dec : String → Option JwtClaims) (fromTimestamp : Int → String) (nowIso : String)
    (noBrowser : Bool) (browserResult : Except BrowserAuthErrorS String) :
    get_token parseIso now dec fromTimestamp nowIso none noBrowser browserResult =
      get_token_browser_phase parseIso now dec fromTimestamp nowIso none
        noBrowser browserResult := rfl

/-! ## The claims -/

/-- C1: `get_token` returns the cached token string (through its cache-hit
return) iff the cached record is present and not expired; any token
returned for an expired or absent record comes from re-acquisition, never
from the cache; and a record counts as expired exactly when its
`expires_at` is absent or empty, fails to parse, or parses to an instant
`≤ now`. -/
theorem getToken_cached_iff_not_expired (parseIso : String → Option Int)
    (now : Int) (dec : String → Option JwtClaims) (fromTimestamp : Int → String)
    (nowIso : String) (noBrowser : Bool)
    (browserResult : Except BrowserAuthErrorS String) :
    (∀ r : TokenData,
      get_token parseIso now dec fromTimestamp nowIso (some r) noBrowser browserResult
          = GetTokenOutcome.okCache r.token
        ↔ is_expired parseIso now r = false) ∧
    (∀ (r : TokenData) (t : String),
      get_token parseIso now dec fromTimestamp nowIso (some r) noBrowser browserResult
          = GetTokenOutcome.okCache t →
        t = r.token ∧ is_expired parseIso now r = false) ∧
    (∀ t : String,
      get_token parseIso now dec fromTimestamp nowIso none noBrowser browserResult
        ≠ GetTokenOutcome.okCache t) ∧
    (∀ r : TokenData,
      is_expired parseIso now r = true ↔
        (r.expires_at = none ∨ r.expires_at = some "" ∨
          (∃ s, r.expires_at = some s ∧ s ≠ "" ∧ parseIso s = none) ∨
          (∃ s e, r.expires_at = some s ∧ s ≠ "" ∧ parseIso s = some e ∧ now ≥ e))) := by
  refine ⟨?_, ?_, ?_, ?_⟩
  · intro r
    rw [get_token_some]
    by_cases he : is_expired parseIso now r = true
    · rw [if_pos he]
      constructor
      · intro hc
        exact absurd hc (browser_phase_ne_okCache parseIso now dec fromTimestamp
          nowIso (some r) noBrowser browserResult r.token)
      · intro hf
        rw [hf] at he
        exact Bool.noConfusion he
    · rw [if_neg he]
      simp only [Bool.not_eq_true] at he
      exact ⟨fun _ => he, fun _ => rfl⟩
  · intro r t hc
    rw [get_token_some] at hc
    by_cases he : is_expired parseIso now r = true
    · rw [if_pos he] at hc
      exact absurd hc (browser_phase_ne_okCache parseIso now dec fromTimestamp
        nowIso (some r) noBrowser browserResult t)
    · rw [if_neg he] at hc
      simp only [Bool.not_eq_true] at he
      refine ⟨?_, he⟩
      cases hc
      rfl
  · intro t hc
    rw [get_token_none] at hc
    exact browser_phase_ne_okCache parseIso now dec fromTimestamp nowIso none
      noBrowser browserResult t hc
  · intro r
    cases hr : r.expires_at with
    | none =>
      rw [is_expired_eq_none parseIso now r hr]
      simp
    | some s =>
      rw [is_expired_eq_some parseIso now r s hr]
      by_cases hse : s = ""
      · subst hse
        simp
      · rw [if_neg hse]
        cases hp : parseIso s with
        | none =>
          constructor
          · intro _
            exact Or.inr (Or.inr (Or.inl ⟨s, rfl, hse, hp⟩))
          · intro _
            rfl
        | some e =>
          constructor
          · intro hge
            exact Or.inr (Or.inr (Or.inr ⟨s, e, rfl, hse, hp, of_decide_eq_true hge⟩))
          · intro hdisj
            rcases hdisj with h | h | ⟨s', hs', hne, hp'⟩ | ⟨s', e', hs', hne, hp', hge⟩
            · exact Option.noConfusion h
            · have : s = "" := by
                injection h
              exact absurd this hse
            · have hss : s = s' := by
                injection hs'
              rw [← hss] at hp'
              rw [hp] at hp'
              exact Option.noConfusion hp'
            · have hss : s = s' := by
                injection hs'
              rw [← hss] at hp'
              rw [hp] at hp'
              have hee : e = e' := by
                injection hp'
              rw [← hee] at hge
              exact decide_eq_true hge

/-- C1 witness: for a concrete unexpired record the cached token is
returned, and a concrete past-expiry record is classified expired. -/
theorem getToken_cached_iff_not_expired_witness :
    get_token (fun s => if s = "9" then some 9 else none) 5 (fun _ => none)
        (fun _ => "") "" (some { token := "T", expires_at := some "9" }) true
        (Except.error playwrightMissingError)
      = GetTokenOutcome.okCache "T" ∧
    is_expired (fun s => if s = "9" then some 9 else none) 50
        { token := "T", expires_at := some "9" } = true := by
  constructor
  · exact (getToken_cached_iff_not_expired (fun s => if s = "9" then some 9 else none)
      5 (fun _ => none) (fun _ => "") "" true
      (Except.error playwrightMissingError)).1
      { token := "T", expires_at := some "9" } |>.mpr (by decide)
  · exact (getToken_cached_iff_not_expired (fun s => if s = "9" then some 9 else none)
      50 (fun _ => none) (fun _ => "") "" true
      (Except.error playwrightMissingError)).2.2.2
      { token := "T", expires_at := some "9" } |>.mpr
      (Or.inr (Or.inr (Or.inr ⟨"9", 9, rfl, by decide, by decide, by decide⟩)))

/-- C2: a manually ingested token that fails a format check (missing
`eyJ` prefix, not exactly three dot-separated segments, undecodable middle
segment) or whose decoded claims lack an `exp` claim makes
`login_with_token` raise `AuthenticationError`, and the credential store
is left unchanged. -/
theorem ingestToken_rejects_and_leaves_store (dec : String → Option JwtClaims)
    (fromTimestamp : Int → String) (nowIso : String) (store : Option TokenData)
    (token : String) :
    (pyStartsWith token "eyJ" = false →
      ∃ msg, ingestToken dec fromTimestamp nowIso store token = (store, some msg)) ∧
    ((pySplitDot token).length ≠ 3 →
      ∃ msg, ingestToken dec fromTimestamp nowIso store token = (store, some msg)) ∧
    (∀ h p t', pySplitDot token = [h, p, t'] → dec (padPayload p) = none →
      ∃ msg, ingestToken dec fromTimestamp nowIso store token = (store, some msg)) ∧
    (∀ h p t' c, pySplitDot token = [h, p, t'] → dec (padPayload p) = some c →
      c.exp = none →
      ∃ msg, ingestToken dec fromTimestamp nowIso store token = (store, some msg)) := by
  by_cases hsw : pyStartsWith token "eyJ" = true
  · have hlogin : ∀ msg', login_with_token dec fromTimestamp nowIso token =
        Except.error msg' →
        ingestToken dec fromTimestamp nowIso store token = (store, some msg') := by
      intro msg' hl
      unfold ingestToken
      rw [hl]
    refine ⟨?_, ?_, ?_, ?_⟩
    · intro hf
      rw [hsw] at hf
      exact Bool.noConfusion hf
    · intro hlen
      refine ⟨"Invalid JWT format (expected 3 parts).", hlogin _ ?_⟩
      unfold login_with_token decode_jwt_claims
      rw [if_pos hsw]
      rcases hs : pySplitDot token with _ | ⟨a, _ | ⟨b, _ | ⟨c, _ | ⟨d, tl⟩⟩⟩⟩
      · rfl
      · rfl
      · rfl
      · rw [hs] at hlen
        simp at hlen
      · rfl
    · intro h p t' hs hdec
      refine ⟨"Failed to decode JWT token.", hlogin _ ?_⟩
      unfold login_with_token decode_jwt_claims
      rw [if_pos hsw, hs]
      simp only [hdec]
    · intro h p t' c hs hdec hexp
      refine ⟨"Token has no expiration claim.", hlogin _ ?_⟩
      unfold login_with_token decode_jwt_claims
      rw [if_pos hsw, hs]
      simp only [hdec, hexp]
  · have hfmt : ingestToken dec fromTimestamp nowIso store token =
        (store, some "Invalid token format. JWT tokens start with 'eyJ'. Make sure you copied the full token from LOGIN_DATA.") := by
      unfold ingestToken login_with_token
      rw [if_neg hsw]
    exact ⟨fun _ => ⟨_, hfmt⟩, fun _ => ⟨_, hfmt⟩, fun _ _ _ _ _ => ⟨_, hfmt⟩,
      fun _ _ _ _ _ _ _ => ⟨_, hfmt⟩⟩

/-- C2 witness: a concrete three-segment `eyJ…` token whose claims decode
without an `exp` claim is rejected and a concrete populated store is left
unchanged. -/
theorem ingestToken_rejects_and_leaves_store_witness :
    ∃ msg, ingestToken (fun _ => some { exp := none }) (fun _ => "") ""
      (some { token := "old" }) "eyJa.b.c" = (some { token := "old" }, some msg) :=
  (ingestToken_rejects_and_leaves_store (fun _ => some { exp := none })
    (fun _ => "") "" (some { token := "old" }) "eyJa.b.c").2.2.2
    "eyJa" "b" "c" { exp := none } (by decide) rfl rfl

/-- C3: the interactive acquisition orchestrator returns the headless
(phase 1) token without entering the headed phase when phase 1 yields one;
it enters the headed phase only when phase 1 produced nothing; and when
both phases produce nothing it raises the `BrowserAuthError` whose message
interpolates the configured `BROWSER_HEADED_TIMEOUT`. -/
theorem acquire_two_phase_protocol (phase2 : Option String) :
    (∀ t, acquire_token_via_browser true (some t) phase2 =
      { result := Except.ok t, ranHeaded := false }) ∧
    (∀ t, acquire_token_via_browser true none (some t) =
      { result := Except.ok t, ranHeaded := true }) ∧
    acquire_token_via_browser true none none =
      { result := Except.error
          (mkBrowserAuthError (timeoutMessage BROWSER_HEADED_TIMEOUT) none)
        ranHeaded := true } :=
  ⟨fun _ => rfl, fun _ => rfl, rfl⟩

/-- C7 (as amended): within one `refresh` pass the caller's profile is
fetched from the data-fetch collaborator exactly twice when the user id is
truthy — once to derive the user fields and once to seed the
organizations — and zero times otherwise, never exactly once. -/
theorem refresh_profile_fetch_count (uid : Option Nat) (pgu : Option String)
    (profileResult : Except Unit Profile)
    (scoutsResult : Except Unit (List RawScout))
    (rolesResult : Except Unit (List RoleRec)) :
    (refresh uid pgu profileResult scoutsResult rolesResult).profileCalls =
      if truthyN uid then 2 else 0 := by
  cases h : truthyN uid <;> simp [refresh, h]

/-- C7 counterexample: a concrete refresh pass with a truthy user id
issues two profile fetches, not the single fetch the claim states. -/
theorem refresh_profile_fetch_count_counterexample :
    (refresh (some 1) none (Except.error ()) (Except.error ())
      (Except.error ())).profileCalls = 2 ∧ (2 : Nat) ≠ 1 := by
  constructor
  · rfl
  · decide

/-- C8: the role-merge step keeps the organization key set unchanged and,
for every organization already present, only fills a missing `program`
key from a role record's truthy `programType`; an entry whose `program`
key is present is returned exactly as it was, and no field other than
`program` is ever modified. -/
theorem roleMerge_backfills_missing_program_only (roles : List RoleRec)
    (orgs : List (String × OrgEntry)) :
    keysA (List.foldl progStep orgs roles) = keysA orgs ∧
    ∀ g e, lookupA g orgs = some e →
      ∃ e', lookupA g (List.foldl progStep orgs roles) = some e' ∧
        e'.orgGuid = e.orgGuid ∧ e'.name = e.name ∧ e'.unitType = e.unitType ∧
        e'.unitNumber = e.unitNumber ∧ e'.roles = e.roles ∧ e'.scouts = e.scouts ∧
        (e.program ≠ none → e' = e) ∧
        (e.program = none →
          e'.program = none ∨
          ∃ rr ∈ roles, ∃ p, rr.organizationGuid = some g ∧
            rr.programType = some p ∧ p ≠ "" ∧ e'.program = some (some p)) :=
  ⟨keysA_foldl progStep (fun o a => keysA_progStep o a) roles orgs,
   fun g e h => progFold_frame roles orgs g e h⟩

/-- C8 witness: a concrete profile-seeded entry (no `program` key) gets its
program filled, while an entry whose `program` key is present (value
`null`) is untouched. -/
theorem roleMerge_backfills_missing_program_only_witness :
    ∃ e', lookupA "g" (List.foldl progStep
        [("g", ({ orgGuid := "g", program := some none } : OrgEntry))]
        [{ organizationGuid := some "g", programType := some "Scouts BSA" }]) =
      some e' ∧ e' = { orgGuid := "g", program := some none } := by
  obtain ⟨e', h1, _, _, _, _, _, _, hsame, _⟩ :=
    (roleMerge_backfills_missing_program_only
      [{ organizationGuid := some "g", programType := some "Scouts BSA" }]
      [("g", ({ orgGuid := "g", program := some none } : OrgEntry))]).2
      "g" { orgGuid := "g", program := some none } (by simp [lookupA])
  exact ⟨e', h1, hsame (by decide)⟩

/-- C9: `get_token` never surfaces a `BrowserAuthError`: whatever exception
the browser path raises — the missing-Playwright error or the timeout
error included — the outcome is independent of that exception's message
and suggestion, and the raised error is an `AuthenticationError` carrying
either the "Token expired at T" message (expired cached record) or the
"No authentication token found." message (no cached record). -/
theorem getToken_never_propagates_browser_error (parseIso : String → Option Int)
    (now : Int) (dec : String → Option JwtClaims) (fromTimestamp : Int → String)
    (nowIso : String) (cached : Option TokenData) (noBrowser : Bool) :
    (∀ (browserResult : Except BrowserAuthErrorS String) (e : BrowserAuthErrorS),
      get_token parseIso now dec fromTimestamp nowIso cached noBrowser browserResult
        ≠ GetTokenOutcome.browserError e) ∧
    (∀ e₁ e₂ : BrowserAuthErrorS,
      get_token parseIso now dec fromTimestamp nowIso cached noBrowser
          (Except.error e₁) =
      get_token parseIso now dec fromTimestamp nowIso cached noBrowser
          (Except.error e₂)) ∧
    (∀ (e : BrowserAuthErrorS) (r : TokenData), cached = some r →
      is_expired parseIso now r = true →
      get_token parseIso now dec fromTimestamp nowIso cached noBrowser
          (Except.error e) = GetTokenOutcome.authError (expiredMsg r)) ∧
    (∀ e : BrowserAuthErrorS, cached = none →
      get_token parseIso now dec fromTimestamp nowIso cached noBrowser
          (Except.error e) = GetTokenOutcome.authError
            "No authentication token found.") := by
  refine ⟨?_, ?_, ?_, ?_⟩
  · intro browserResult e
    cases cached with
    | none =>
      rw [get_token_none]
      exact browser_phase_ne_browserError parseIso now dec fromTimestamp nowIso
        none noBrowser browserResult e
    | some r =>
      rw [get_token_some]
      by_cases he : is_expired parseIso now r = true
      · rw [if_pos he]
        exact browser_phase_ne_browserError parseIso now dec fromTimestamp nowIso
          (some r) noBrowser browserResult e
      · rw [if_neg he]
        intro hc
        exact GetTokenOutcome.noConfusion hc
  · intro e₁ e₂
    cases cached with
    | none =>
      rw [get_token_none, get_token_none, browser_phase_error, browser_phase_error]
    | some r =>
      rw [get_token_some, get_token_some]
      by_cases he : is_expired parseIso now r = true
      · rw [if_pos he, if_pos he, browser_phase_error, browser_phase_error]
      · rw [if_neg he, if_neg he]
  · intro e r hc he
    subst hc
    rw [get_token_some, if_pos he, browser_phase_error,
      get_token_fallthrough_some, if_pos he]
  · intro e hc
    subst hc
    rw [get_token_none, browser_phase_error]
    rfl

/-- C9 witness: with a concrete expired record both concrete browser
errors (missing Playwright, timed out) collapse to the same
`AuthenticationError` with the expiry message. -/
theorem getToken_never_propagates_browser_error_witness :
    get_token (fun _ => some 9) 50 (fun _ => none) (fun _ => "") ""
        (some { token := "T", expires_at := some "9" }) false
        (Except.error playwrightMissingError) =
      GetTokenOutcome.authError "Token expired at 9." ∧
    get_token (fun _ => some 9) 50 (fun _ => none) (fun _ => "") ""
        (some { token := "T", expires_at := some "9" }) false
        (Except.error (mkBrowserAuthError (timeoutMessage BROWSER_HEADED_TIMEOUT) none)) =
      GetTokenOutcome.authError "Token expired at 9." := by
  constructor
  · exact (getToken_never_propagates_browser_error (fun _ => some 9) 50
      (fun _ => none) (fun _ => "") ""
      (some { token := "T", expires_at := some "9" }) false).2.2.1
      playwrightMissingError { token := "T", expires_at := some "9" } rfl (by decide)
  · exact (getToken_never_propagates_browser_error (fun _ => some 9) 50
      (fun _ => none) (fun _ => "") ""
      (some { token := "T", expires_at := some "9" }) false).2.2.1
      (mkBrowserAuthError (timeoutMessage BROWSER_HEADED_TIMEOUT) none)
      { token := "T", expires_at := some "9" } rfl (by decide)

/-- C10: `exists()` is true exactly when a snapshot loads and its stored
`version` equals the fixed schema version, while the local reads
`get_scouts`, `get_organizations` and `get_user` perform no version check:
on a loadable snapshot with any mismatched version they still serve the
stored content although `exists()` is false. -/
theorem exists_checks_version_reads_do_not (c : CtxData) :
    (ctx_exists (some c) = true ↔ c.version = some CONTEXT_VERSION) ∧
    ctx_exists none = false ∧
    (c.version ≠ some CONTEXT_VERSION →
      ctx_exists (some c) = false ∧
      ctx_get_scouts (some c) = c.scouts.getD [] ∧
      ctx_get_organizations (some c) = c.organizations.getD [] ∧
      ctx_get_user (some c) = c.user) := by
  refine ⟨?_, rfl, ?_⟩
  · simp [ctx_exists]
  · intro h
    refine ⟨?_, rfl, rfl, rfl⟩
    simp [ctx_exists, h]

/-- A concrete snapshot stored with a mismatched schema version. -/
def mismatchedCtx : CtxData :=
  { version := some 2
    user := some { userId := some 7 }
    scouts := some [{ fullName := "Sam Smith" }] }

/-- C10 witness: a concrete snapshot stored with `version = 2` fails
`exists()` yet its scouts and user are still served by the reads. -/
theorem exists_checks_version_reads_do_not_witness :
    ctx_exists (some mismatchedCtx) = false ∧
    ctx_get_scouts (some mismatchedCtx) = [{ fullName := "Sam Smith" }] ∧
    ctx_get_user (some mismatchedCtx) = some { userId := some 7 } := by
  have h := (exists_checks_version_reads_do_not mismatchedCtx).2.2 (by decide)
  exact ⟨h.1, h.2.1, h.2.2.2⟩

theorem refresh_scouts_eq (uid : Option Nat) (pgu : Option String)
    (profileResult : Except Unit Profile)
    (scoutsResult : Except Unit (List RawScout))
    (rolesResult : Except Unit (List RoleRec)) :
    (refresh uid pgu profileResult scoutsResult rolesResult).scouts =
      (scoutsStage uid scoutsResult (seedOrgsFromProfile uid profileResult)).1 := rfl

theorem refresh_orgs_eq (uid : Option Nat) (pgu : Option String)
    (profileResult : Except Unit Profile)
    (scoutsResult : Except Unit (List RawScout))
    (rolesResult : Except Unit (List RoleRec)) :
    (refresh uid pgu profileResult scoutsResult rolesResult).organizations =
      valuesA (rolesStage pgu rolesResult
        (scoutsStage uid scoutsResult (seedOrgsFromProfile uid profileResult)).2) := rfl

theorem scoutsStage_ok (uid : Option Nat) (raw : List RawScout)
    (orgs0 : List (String × OrgEntry)) (hu : truthyN uid = true) :
    scoutsStage uid (Except.ok raw) orgs0 =
      (valuesA (raw.foldl stepSeen []),
       (valuesA (raw.foldl stepSeen [])).foldl addRef
         (raw.foldl stepOrgFromScout orgs0)) := by
  unfold scoutsStage
  rw [if_pos hu]

/-- C4 (as amended): for every dependent list in which two records share a
person identifier but carry different *non-empty* position strings, the
snapshot holds exactly one scout entry for that identifier, and its
`positions` list contains both strings and no duplicates. (The non-empty
qualification is forced: an empty-string position is falsy in Python and
is never accumulated, see the counterexample.) -/
theorem refresh_merges_positions (uid : Option Nat) (pgu : Option String)
    (profileResult : Except Unit Profile) (rolesResult : Except Unit (List RoleRec))
    (raw : List RawScout) (r1 r2 : RawScout) (pgv : Option String) (p1 p2 : String)
    (huid : truthyN uid = true) (h1 : r1 ∈ raw) (h2 : r2 ∈ raw)
    (hpg1 : r1.personGuid = pgv) (hpg2 : r2.personGuid = pgv)
    (hp1 : r1.position = some p1) (hp2 : r2.position = some p2)
    (hne : p1 ≠ p2) (hne1 : p1 ≠ "") (hne2 : p2 ≠ "") :
    ∃ e : ScoutEntry,
      (refresh uid pgu profileResult (Except.ok raw) rolesResult).scouts.filter
        (fun x => decide (x.personGuid = pgv)) = [e] ∧
      some p1 ∈ e.positions ∧ some p2 ∈ e.positions ∧ e.positions.Nodup := by
  have hscouts :
      (refresh uid pgu profileResult (Except.ok raw) rolesResult).scouts =
        valuesA (raw.foldl stepSeen []) := by
    rw [refresh_scouts_eq, scoutsStage_ok uid raw _ huid]
  obtain ⟨e1, he1, hm1⟩ := foldSeen_estab raw [] r1 p1 h1 hp1 hne1
  obtain ⟨e2, he2, hm2⟩ := foldSeen_estab raw [] r2 p2 h2 hp2 hne2
  rw [hpg1] at he1
  rw [hpg2] at he2
  have hee : e1 = e2 := Option.some.inj (he1.symm.trans he2)
  subst hee
  obtain ⟨hkeys, hok⟩ := foldSeen_inv raw [] List.nodup_nil (by intro p hp; simp at hp)
  have hfield : ∀ p ∈ raw.foldl stepSeen [], p.2.personGuid = p.1 :=
    fun p hp => (hok p hp).1
  have hfilter := filter_valuesA_eq ScoutEntry.personGuid _ hkeys hfield pgv e1 he1
  refine ⟨e1, ?_, hm1, hm2, (hok (pgv, e1) (lookupA_mem he1)).2⟩
  rw [hscouts]
  exact hfilter

/-- The first raw dependent record of the C4 counterexample: position
`"Scribe"`. -/
def c4raw1 : RawScout := { personGuid := some "p", position := some "Scribe" }

/-- The second raw dependent record of the C4 counterexample: position
`""`, a different string from `"Scribe"`. -/
def c4raw2 : RawScout := { personGuid := some "p", position := some "" }

/-- C4 counterexample: two records share person guid `"p"` and carry the
different position strings `"Scribe"` and `""`, yet the merged entry's
positions list is `["Scribe"]` — the empty-string position is dropped by
the truthiness guard, so the claim as stated fails. -/
theorem refresh_merges_positions_counterexample :
    (refresh (some 1) none (Except.error ()) (Except.ok [c4raw1, c4raw2])
        (Except.error ())).scouts.map ScoutEntry.positions = [[some "Scribe"]] ∧
    c4raw1.position = some "Scribe" ∧ c4raw2.position = some "" ∧
    (some "" : Option String) ∉ [some "Scribe"] := by
  refine ⟨?_, rfl, rfl, by decide⟩
  rfl

/-- The two records of the C4 witness, with non-empty distinct
positions. -/
def c4wr1 : RawScout := { personGuid := some "p", position := some "Scribe" }

/-- Second C4 witness record. -/
def c4wr2 : RawScout := { personGuid := some "p", position := some "Den Chief" }

/-- C4 witness: the amended theorem applied at a concrete two-record
list. -/
theorem refresh_merges_positions_witness :
    ∃ e : ScoutEntry,
      (refresh (some 1) none (Except.error ()) (Except.ok [c4wr1, c4wr2])
          (Except.error ())).scouts.filter
        (fun x => decide (x.personGuid = some "p")) = [e] ∧
      some "Scribe" ∈ e.positions ∧ some "Den Chief" ∈ e.positions ∧
      e.positions.Nodup :=
  refresh_merges_positions (some 1) none (Except.error ()) (Except.error ())
    [c4wr1, c4wr2] c4wr1 c4wr2 (some "p") "Scribe" "Den Chief"
    (by decide) (by decide) (by decide) rfl rfl rfl rfl
    (by decide) (by decide) (by decide)

theorem stepOrgFromScout_lookup_of_ne (orgs : List (String × OrgEntry))
    (s : RawScout) (g : String) (h : s.orgGuid ≠ some g) :
    lookupA g (stepOrgFromScout orgs s) = lookupA g orgs := by
  cases hg : s.orgGuid with
  | none => simp only [stepOrgFromScout, hg]
  | some g' =>
    have hgg : g ≠ g' := fun hh => h (by rw [hg, hh])
    by_cases hge : g' = ""
    · simp only [stepOrgFromScout, hg, if_pos hge]
    · simp only [stepOrgFromScout, hg, if_neg hge]
      cases hl : lookupA g' orgs with
      | none => exact lookupA_insertA_ne _ _ hgg
      | some e =>
        by_cases hm : "Parent/Guardian" ∈ e.roles
        · simp only [if_pos hm]
        · simp only [if_neg hm]
          exact lookupA_updateA_ne _ _ hgg

theorem foldOrg_lookup_of_ne (pre : List RawScout) (g : String) :
    ∀ orgs, (∀ r' ∈ pre, r'.orgGuid ≠ some g) →
      lookupA g (pre.foldl stepOrgFromScout orgs) = lookupA g orgs := by
  induction pre with
  | nil => exact fun orgs _ => rfl
  | cons s rest ih =>
    intro orgs hpre
    simp only [List.foldl_cons]
    rw [ih _ (fun r' hr' => hpre r' (List.mem_cons_of_mem _ hr'))]
    exact stepOrgFromScout_lookup_of_ne orgs s g (hpre s (List.mem_cons_self _ _))

theorem stepOrg_stub_create (orgs : List (String × OrgEntry)) (s : RawScout)
    (g : String) (hg : s.orgGuid = some g) (hge : g ≠ "")
    (hl : lookupA g orgs = none) :
    lookupA g (stepOrgFromScout orgs s) = some (stubOrg s g) := by
  simp only [stepOrgFromScout, hg, if_neg hge, hl]
  exact lookupA_insertA_self _ _ _ hl

/-- The part of a stub organization entry the later passes must keep: its
key, its synthesized name, and the fixed parent role. -/
def StubCore (g : String) (N : Option String) (e : OrgEntry) : Prop :=
  e.orgGuid = g ∧ e.name = N ∧ "Parent/Guardian" ∈ e.roles

theorem stepOrg_stubCore_preserved (orgs : List (String × OrgEntry))
    (s : RawScout) (g : String) (N : Option String) (e : OrgEntry)
    (h : lookupA g orgs = some e) (hc : StubCore g N e) :
    ∃ e', lookupA g (stepOrgFromScout orgs s) = some e' ∧ StubCore g N e' := by
  by_cases hsg : s.orgGuid = some g
  · by_cases hge : g = ""
    · refine ⟨e, ?_, hc⟩
      simp only [stepOrgFromScout, hsg, if_pos hge]
      exact h
    · refine ⟨e, ?_, hc⟩
      simp only [stepOrgFromScout, hsg, if_neg hge, h, if_pos hc.2.2]
  · exact ⟨e, by rw [stepOrgFromScout_lookup_of_ne orgs s g hsg]; exact h, hc⟩

theorem addRef_stubCore_preserved (orgs : List (String × OrgEntry))
    (sc : ScoutEntry) (g : String) (N : Option String) (e : OrgEntry)
    (h : lookupA g orgs = some e) (hc : StubCore g N e) :
    ∃ e', lookupA g (addRef orgs sc) = some e' ∧ StubCore g N e' := by
  obtain ⟨e', h', f⟩ := addRef_frame orgs sc g e h
  refine ⟨e', h', f.1.trans hc.1, f.2.1.trans hc.2.1, ?_⟩
  rw [f.2.2.2.2.2]
  exact hc.2.2

theorem rolesStage_stubCore (pgu : Option String)
    (rolesResult : Except Unit (List RoleRec)) (orgs : List (String × OrgEntry))
    (g : String) (N : Option String) (e : OrgEntry)
    (h : lookupA g orgs = some e) (hc : StubCore g N e) :
    ∃ e', lookupA g (rolesStage pgu rolesResult orgs) = some e' ∧ StubCore g N e' := by
  unfold rolesStage
  by_cases hp : truthyS pgu = true
  · rw [if_pos hp]
    cases rolesResult with
    | ok roles =>
      obtain ⟨e', h', ha, hb, _, _, hr, _, _, _⟩ := progFold_frame roles orgs g e h
      refine ⟨e', h', ha.trans hc.1, hb.trans hc.2.1, ?_⟩
      rw [hr]
      exact hc.2.2
    | error e0 => exact ⟨e, h, hc⟩
  · rw [if_neg hp]
    exact ⟨e, h, hc⟩

/-- C5 (as amended): for the first dependent record referencing a truthy
organization identifier absent from the profile-derived set, the snapshot
contains a synthesized entry under that identifier whose roles include
the fixed `"Parent/Guardian"` role and whose name follows the stub
formula — the stripped `"{unitType} {unitNumber}"` when the record's unit
type is non-empty, else the record's organization name (possibly absent);
when the unit type contains a non-whitespace character that name is
non-empty. (The original claim's unconditional "non-empty name" fails
when both the unit type and the organization name are absent, see the
counterexample.) -/
theorem refresh_materializes_stub_org (uid : Option Nat) (pgu : Option String)
    (profileResult : Except Unit Profile) (rolesResult : Except Unit (List RoleRec))
    (raw pre post : List RawScout) (r : RawScout) (g : String)
    (huid : truthyN uid = true) (hsplit : raw = pre ++ r :: post)
    (hg : r.orgGuid = some g) (hge : g ≠ "")
    (hnew : lookupA g (seedOrgsFromProfile uid profileResult) = none)
    (hpre : ∀ r' ∈ pre, r'.orgGuid ≠ some g) :
    ∃ e ∈ (refresh uid pgu profileResult (Except.ok raw) rolesResult).organizations,
      e.orgGuid = g ∧ "Parent/Guardian" ∈ e.roles ∧ e.name = (stubOrg r g).name ∧
      (∀ ut, r.unitType = some ut → (∃ c ∈ ut.data, c.isWhitespace = false) →
        ∃ nm, e.name = some nm ∧ nm ≠ "") := by
  subst hsplit
  have horgs :
      (refresh uid pgu profileResult (Except.ok (pre ++ r :: post)) rolesResult).organizations
        = valuesA (rolesStage pgu rolesResult
            ((valuesA ((pre ++ r :: post).foldl stepSeen [])).foldl addRef
              ((pre ++ r :: post).foldl stepOrgFromScout
                (seedOrgsFromProfile uid profileResult)))) := by
    rw [refresh_orgs_eq, scoutsStage_ok uid _ _ huid]
  have hpreNone :
      lookupA g (pre.foldl stepOrgFromScout (seedOrgsFromProfile uid profileResult))
        = none := by
    rw [foldOrg_lookup_of_ne pre g _ hpre]
    exact hnew
  have hcreate :
      lookupA g (stepOrgFromScout
          (pre.foldl stepOrgFromScout (seedOrgsFromProfile uid profileResult)) r)
        = some (stubOrg r g) :=
    stepOrg_stub_create _ r g hg hge hpreNone
  have hcore0 : StubCore g (stubOrg r g).name (stubOrg r g) :=
    ⟨rfl, rfl, List.mem_cons_self _ _⟩
  have hfold1 :
      ∃ e', lookupA g ((pre ++ r :: post).foldl stepOrgFromScout
          (seedOrgsFromProfile uid profileResult)) = some e' ∧
        StubCore g (stubOrg r g).name e' := by
    rw [List.foldl_append, List.foldl_cons]
    exact foldl_lookup_pred g (StubCore g (stubOrg r g).name) stepOrgFromScout
      (fun orgs a e h hp => stepOrg_stubCore_preserved orgs a g _ e h hp) post
      _ _ hcreate hcore0
  obtain ⟨e1, he1, hc1⟩ := hfold1
  obtain ⟨e2, he2, hc2⟩ :=
    foldl_lookup_pred g (StubCore g (stubOrg r g).name) addRef
      (fun orgs a e h hp => addRef_stubCore_preserved orgs a g _ e h hp)
      (valuesA ((pre ++ r :: post).foldl stepSeen [])) _ e1 he1 hc1
  obtain ⟨e3, he3, hc3⟩ := rolesStage_stubCore pgu rolesResult _ g _ e2 he2 hc2
  refine ⟨e3, ?_, hc3.1, hc3.2.2, hc3.2.1, ?_⟩
  · rw [horgs]
    exact mem_valuesA_of_lookupA he3
  · intro ut hut hcws
    obtain ⟨c, hcm, hcw⟩ := hcws
    have hutne : ut ≠ "" := by
      intro h0
      subst h0
      have hdata : ("" : String).data = [] := rfl
      rw [hdata] at hcm
      simp at hcm
    have hname : (stubOrg r g).name =
        some (pyStrip (ut ++ " " ++ (r.unitNumber.getD ""))) := by
      unfold stubOrg
      rw [hut]
      simp only [Option.getD_some]
      rw [if_pos hutne]
    refine ⟨pyStrip (ut ++ " " ++ (r.unitNumber.getD "")), ?_, ?_⟩
    · rw [hc3.2.1, hname]
    · refine pyStrip_ne_empty _ c ?_ hcw
      simp only [String.data_append]
      exact List.mem_append_left _ (List.mem_append_left _ hcm)

/-- The raw dependent record of the C5 counterexample: a fresh org guid
with no unit type and no organization name. -/
def c5raw : RawScout := { personGuid := some "s", orgGuid := some "gX" }

/-- The stub entry the C5 counterexample run actually produces: its name
is absent. -/
def c5stub : OrgEntry :=
  { orgGuid := "gX"
    name := none
    unitType := some ""
    unitNumber := some ""
    program := some none
    roles := ["Parent/Guardian"]
    scouts := [{ name := "", userId := none, memberId := none }] }

/-- C5 counterexample: a dependent with a fresh organization identifier
but neither unit type nor organization name yields a stub entry whose
`name` is `None` — not the non-empty name the claim states. -/
theorem refresh_materializes_stub_org_counterexample :
    (refresh (some 1) none (Except.ok {}) (Except.ok [c5raw])
        (Except.error ())).organizations = [c5stub] ∧ c5stub.name = none := by
  constructor
  · rfl
  · rfl

/-- The raw dependent record of the C5 witness: unit type `"Pack"` and
number `"12"` under a fresh org guid. -/
def c5wraw : RawScout :=
  { personGuid := some "p", orgGuid := some "g1"
    unitType := some "Pack", unitNumber := some "12" }

/-- C5 witness: the amended theorem applied at a concrete one-record list;
the stub is materialized with the non-empty name `"Pack 12"` and the
parent role. -/
theorem refresh_materializes_stub_org_witness :
    ∃ e ∈ (refresh (some 1) none (Except.error ()) (Except.ok [c5wraw])
        (Except.error ())).organizations,
      e.orgGuid = "g1" ∧ "Parent/Guardian" ∈ e.roles ∧
      e.name = (stubOrg c5wraw "g1").name ∧
      (∀ ut, c5wraw.unitType = some ut → (∃ c ∈ ut.data, c.isWhitespace = false) →
        ∃ nm, e.name = some nm ∧ nm ≠ "") :=
  refresh_materializes_stub_org (some 1) none (Except.error ()) (Except.error ())
    [c5wraw] [] [] c5wraw "g1" (by decide) rfl rfl (by decide) rfl
    (by intro r' hr'; simp at hr')

theorem valuesA_map_key {K V : Type} (f : V → K) (l : List (K × V))
    (h : ∀ p ∈ l, f p.2 = p.1) : (valuesA l).map f = keysA l := by
  induction l with
  | nil => rfl
  | cons a rest ih =>
    obtain ⟨k, v⟩ := a
    simp only [valuesA_cons, keysA_cons, List.map_cons]
    rw [h (k, v) (List.mem_cons_self _ _)]
    rw [ih (fun p hp => h p (List.mem_cons_of_mem _ hp))]

theorem isSome_of_keysA_eq {K V : Type} [DecidableEq K]
    (l l' : List (K × V)) (hk : keysA l' = keysA l) (k : K)
    (h : (lookupA k l).isSome = true) : (lookupA k l').isSome = true := by
  rw [lookupA_isSome_iff, hk]
  rw [lookupA_isSome_iff] at h
  exact h

/-- C6 (as amended): every snapshot produced by `refresh` has unique
organization identifiers, unique scout dedup keys (person identifiers),
duplicate-free position lists, and every scout's `orgGuid` that is present
*and non-empty* references an organization entry of the snapshot (a stub
entry having been materialized rather than the scout dropped). (The
non-empty qualification is forced: a dependent whose `orgGuid` is the
falsy string `""` keeps that value in its scout entry while no
organization is materialized for it, see the counterexample.) -/
theorem refresh_snapshot_invariants (uid : Option Nat) (pgu : Option String)
    (profileResult : Except Unit Profile)
    (scoutsResult : Except Unit (List RawScout))
    (rolesResult : Except Unit (List RoleRec)) :
    ((refresh uid pgu profileResult scoutsResult rolesResult).organizations.map
      OrgEntry.orgGuid).Nodup ∧
    ((refresh uid pgu profileResult scoutsResult rolesResult).scouts.map
      ScoutEntry.personGuid).Nodup ∧
    (∀ sc ∈ (refresh uid pgu profileResult scoutsResult rolesResult).scouts,
      sc.positions.Nodup) ∧
    (∀ sc ∈ (refresh uid pgu profileResult scoutsResult rolesResult).scouts,
      ∀ g, sc.orgGuid = some g → g ≠ "" →
        ∃ e ∈ (refresh uid pgu profileResult scoutsResult rolesResult).organizations,
          e.orgGuid = g) := by
  have hinvF : OrgsInv (rolesStage pgu rolesResult
      (scoutsStage uid scoutsResult (seedOrgsFromProfile uid profileResult)).2) :=
    rolesStage_inv pgu rolesResult _
      (scoutsStage_inv uid scoutsResult _ (seedOrgsFromProfile_inv uid profileResult))
  have horgsNodup :
      ((refresh uid pgu profileResult scoutsResult rolesResult).organizations.map
        OrgEntry.orgGuid).Nodup := by
    rw [refresh_orgs_eq, valuesA_map_key OrgEntry.orgGuid _ hinvF.2]
    exact hinvF.1
  refine ⟨horgsNodup, ?_⟩
  by_cases hu : truthyN uid = true
  · cases scoutsResult with
    | error e0 =>
      have hscouts : (refresh uid pgu profileResult (Except.error e0) rolesResult).scouts
          = [] := by
        rw [refresh_scouts_eq]
        unfold scoutsStage
        rw [if_pos hu]
      rw [hscouts]
      refine ⟨List.nodup_nil, ?_, ?_⟩
      · intro sc hsc
        simp at hsc
      · intro sc hsc
        simp at hsc
    | ok raw =>
      have hscouts : (refresh uid pgu profileResult (Except.ok raw) rolesResult).scouts
          = valuesA (raw.foldl stepSeen []) := by
        rw [refresh_scouts_eq, scoutsStage_ok uid raw _ hu]
      obtain ⟨hkeys, hok⟩ := foldSeen_inv raw [] List.nodup_nil
        (by intro p hp; simp at hp)
      have hfield : ∀ p ∈ raw.foldl stepSeen [], p.2.personGuid = p.1 :=
        fun p hp => (hok p hp).1
      refine ⟨?_, ?_, ?_⟩
      · rw [hscouts, valuesA_map_key ScoutEntry.personGuid _ hfield]
        exact hkeys
      · intro sc hsc
        rw [hscouts] at hsc
        rcases List.mem_map.mp hsc with ⟨p, hp, hval⟩
        rw [← hval]
        exact (hok p hp).2
      · intro sc hsc g hscg hge
        rw [hscouts] at hsc
        rcases List.mem_map.mp hsc with ⟨p, hp, hval⟩
        have href := refInv_fold raw [] (seedOrgsFromProfile uid profileResult)
          (by intro q hq; simp at hq) p hp
        have hsome1 : (lookupA g (raw.foldl stepOrgFromScout
            (seedOrgsFromProfile uid profileResult))).isSome = true := by
          refine href g ?_ hge
          rw [hval]
          exact hscg
        have hsome2 : (lookupA g
            ((valuesA (raw.foldl stepSeen [])).foldl addRef
              (raw.foldl stepOrgFromScout
                (seedOrgsFromProfile uid profileResult)))).isSome = true := by
          refine isSome_of_keysA_eq _ _ ?_ g hsome1
          exact keysA_foldl addRef (fun o a => keysA_addRef o a) _ _
        have hsome3 : (lookupA g (rolesStage pgu rolesResult
            (scoutsStage uid (Except.ok raw)
              (seedOrgsFromProfile uid profileResult)).2)).isSome = true := by
          rw [scoutsStage_ok uid raw _ hu]
          exact isSome_of_keysA_eq _ _ (keysA_rolesStage pgu rolesResult _) g hsome2
        obtain ⟨e, he⟩ := Option.isSome_iff_exists.mp hsome3
        refine ⟨e, ?_, ?_⟩
        · rw [refresh_orgs_eq]
          exact mem_valuesA_of_lookupA he
        · exact hinvF.2 (g, e) (lookupA_mem he)
  · have hscouts : (refresh uid pgu profileResult scoutsResult rolesResult).scouts
        = [] := by
      rw [refresh_scouts_eq]
      unfold scoutsStage
      rw [if_neg hu]
    rw [hscouts]
    refine ⟨List.nodup_nil, ?_, ?_⟩
    · intro sc hsc
      simp at hsc
    · intro sc hsc
      simp at hsc

/-- The raw dependent record of the C6 counterexample: `orgGuid` is the
falsy empty string. -/
def c6raw : RawScout := { personGuid := some "q", orgGuid := some "" }

/-- C6 counterexample: the snapshot keeps a scout entry whose `orgGuid`
is present (the empty string) while `organizations` is empty, so the
literal "every present orgGuid references an organization" invariant
fails. -/
theorem refresh_snapshot_invariants_counterexample :
    (refresh (some 1) none (Except.ok {}) (Except.ok [c6raw])
        (Except.error ())).scouts.map ScoutEntry.orgGuid = [some ""] ∧
    (refresh (some 1) none (Except.ok {}) (Except.ok [c6raw])
        (Except.error ())).organizations = [] := by
  constructor
  · rfl
  · rfl

/-- The raw dependent record of the C6 witness: a truthy org guid. -/
def c6wraw : RawScout :=
  { personGuid := some "p", orgGuid := some "g1"
    unitType := some "Pack", unitNumber := some "12" }

/-- C6 witness: the amended theorem applied at a concrete run; the scout's
non-empty `orgGuid` is backed by a materialized organization entry. -/
theorem refresh_snapshot_invariants_witness :
    ∃ e ∈ (refresh (some 1) none (Except.error ()) (Except.ok [c6wraw])
        (Except.error ())).organizations, e.orgGuid = "g1" := by
  have h := (refresh_snapshot_invariants (some 1) none (Except.error ())
    (Except.ok [c6wraw]) (Except.error ())).2.2.2
  exact h (mkScoutEntry c6wraw) (by decide) "g1" rfl (by decide)

end Scouts
